import Mathlib

/-
Verification of the BenzeneOS battery HAL service (rust/src/service.rs,
rust/src/sysfs.rs) against its natural-language specification.

The sysfs backing store is modelled as a finite association list from path
strings to nodes; a node is either readable content or present but
unreadable (reads fail with the source's `Error::Io`), so all three error
arms of `sysfs::Error` — `NotFound`, `Io`, `Parse` — are representable.
Writes to a present node succeed and leave readable content behind (the
claims about multi-write operations all carry a "provided every write
performed succeeds" proviso, and every write in the service is guarded by
an existence check).
Machine integers (`i32`) are modelled as `Int`; the one place where 32-bit
overflow can change behaviour (the `stop - start` gap check and the
`stop - 1` transitional value) uses an explicit two's-complement wrap,
matching release-mode Rust semantics.
-/

set_option maxHeartbeats 1000000

namespace BatteryHal

/-- Two's-complement wrap of an integer into the `i32` range
`[-2147483648, 2147483647]`, i.e. release-mode Rust `i32` overflow
semantics. `2147483648 = 2^31`, `4294967296 = 2^32`. -/
def wrap32 (x : Int) : Int :=
  (x + 2147483648) % 4294967296 - 2147483648

theorem wrap32_eq_self (x : Int) (h1 : -2147483648 ≤ x) (h2 : x ≤ 2147483647) :
    wrap32 x = x := by
  unfold wrap32
  omega

/-- Character-level whitespace predicate used to model Rust's `str::trim`
(the contents we model are ASCII, where Rust's Unicode whitespace class
restricts to these code points). -/
def isWs (c : Char) : Bool :=
  c.toNat = 32 || c.toNat = 9 || c.toNat = 10 || c.toNat = 11 || c.toNat = 12 || c.toNat = 13

/-- Trim whitespace from both ends of a character list, as Rust `str::trim`. -/
def trimChars (l : List Char) : List Char :=
  ((l.dropWhile isWs).reverse.dropWhile isWs).reverse

/-- Model of Rust `str::trim` on `String`. -/
def rustTrim (s : String) : String :=
  String.mk (trimChars s.data)

theorem dropWhile_all_false {p : Char → Bool} :
    ∀ {l : List Char}, (∀ c ∈ l, p c = false) → l.dropWhile p = l := by
  intro l h
  induction l with
  | nil => rfl
  | cons x xs ih =>
    have hx : p x = false := h x (List.mem_cons_self x xs)
    simp [List.dropWhile, hx]

theorem trimChars_eq_self {l : List Char} (h : ∀ c ∈ l, isWs c = false) :
    trimChars l = l := by
  unfold trimChars
  rw [dropWhile_all_false h]
  rw [dropWhile_all_false (fun c hc => h c (List.mem_reverse.mp hc))]
  exact List.reverse_reverse l

/-! Decimal printing and parsing of integers, modelling Rust's
`i32::to_string` and `str::parse::<i32>`. -/

/-- Character for a decimal digit value (`0 ↦ '0'`, ..., `9 ↦ '9'`). -/
def digitChar (d : Nat) : Char := Char.ofNat (48 + d)

/-- Numeric value of a decimal digit character. -/
def digVal (c : Char) : Nat := c.toNat - 48

/-- Is the character an ASCII decimal digit? -/
def isDig (c : Char) : Bool := 48 ≤ c.toNat && c.toNat ≤ 57

/-- Little-endian decimal digits of a natural number, with explicit fuel
(structural recursion so that it evaluates inside the kernel). -/
def natDigsRev : Nat → Nat → List Nat
  | 0, _ => []
  | fuel + 1, n => if n = 0 then [] else n % 10 :: natDigsRev fuel (n / 10)

/-- Decimal digit characters of a natural number (big-endian), `0 ↦ "0"`. -/
def natToChars (n : Nat) : List Char :=
  if n = 0 then ['0'] else ((natDigsRev n n).map digitChar).reverse

/-- Decimal representation of an integer, as Rust `i32::to_string`. -/
def intToDecChars (v : Int) : List Char :=
  if v < 0 then '-' :: natToChars v.natAbs else natToChars v.toNat

/-- Decimal string of an integer, as Rust `i32::to_string`. -/
def intToDecStr (v : Int) : String := String.mk (intToDecChars v)

/-- Value of a little-endian decimal digit list. -/
def listVal (l : List Nat) : Nat := l.foldr (fun d a => d + 10 * a) 0

/-- Parse an unsigned run of decimal digits, as the digits part of Rust
`str::parse`: nonempty, all digits, most-significant first. -/
def parseNatChars (l : List Char) : Option Nat :=
  if l = [] then none
  else if l.all isDig then some (l.foldl (fun a c => 10 * a + digVal c) 0)
  else none

/-- Parse an optionally-signed decimal integer, as Rust `str::parse`
before the range check (`+`/`-` sign allowed, digits only, no whitespace). -/
def parseIntChars (l : List Char) : Option Int :=
  if l.head? = some '-' then (parseNatChars l.tail).map (fun (n : Nat) => -(n : Int))
  else if l.head? = some '+' then (parseNatChars l.tail).map (fun (n : Nat) => (n : Int))
  else (parseNatChars l).map (fun (n : Nat) => (n : Int))

/-- Model of Rust `str::parse::<i32>`: signed decimal within the `i32`
range; anything else is a parse failure. -/
def parseI32 (s : String) : Option Int :=
  match parseIntChars s.data with
  | none => none
  | some v => if -2147483648 ≤ v ∧ v ≤ 2147483647 then some v else none

theorem digVal_digitChar {d : Nat} (h : d < 10) : digVal (digitChar d) = d := by
  interval_cases d <;> decide

theorem isDig_digitChar {d : Nat} (h : d < 10) : isDig (digitChar d) = true := by
  interval_cases d <;> decide

theorem natDigsRev_lt_ten :
    ∀ (fuel n : Nat), ∀ d ∈ natDigsRev fuel n, d < 10 := by
  intro fuel
  induction fuel with
  | zero => intro n d hd; simp [natDigsRev] at hd
  | succ f ih =>
    intro n d hd
    by_cases hn : n = 0
    · simp [natDigsRev, hn] at hd
    · simp only [natDigsRev, hn, if_false, List.mem_cons] at hd
      rcases hd with h | h
      · omega
      · exact ih _ d h

theorem listVal_natDigsRev :
    ∀ (fuel n : Nat), n ≤ fuel → listVal (natDigsRev fuel n) = n := by
  intro fuel
  induction fuel with
  | zero => intro n h; interval_cases n; rfl
  | succ f ih =>
    intro n h
    by_cases hn : n = 0
    · simp [natDigsRev, hn, listVal]
    · have hdiv : n / 10 ≤ f := by
        have : n / 10 < n := Nat.div_lt_self (Nat.pos_of_ne_zero hn) (by norm_num)
        omega
      simp only [natDigsRev, hn, if_false, listVal, List.foldr_cons]
      have := ih (n / 10) hdiv
      unfold listVal at this
      rw [this]
      omega

theorem foldl_reverse_listVal :
    ∀ (ds : List Nat) (a : Nat),
      List.foldl (fun acc d => 10 * acc + d) a ds.reverse
        = a * 10 ^ ds.length + listVal ds := by
  intro ds
  induction ds with
  | nil => intro a; simp [listVal]
  | cons d t ih =>
    intro a
    simp only [List.reverse_cons, List.foldl_append, List.foldl_cons, List.foldl_nil]
    rw [ih a]
    simp only [listVal, List.foldr_cons, List.length_cons]
    ring

theorem foldl_digits_congr :
    ∀ (l : List Nat) (a : Nat), (∀ d ∈ l, d < 10) →
      List.foldl (fun acc d => 10 * acc + digVal (digitChar d)) a l
        = List.foldl (fun acc d => 10 * acc + d) a l := by
  intro l
  induction l with
  | nil => intro a _; rfl
  | cons d t ih =>
    intro a h
    simp only [List.foldl_cons]
    rw [digVal_digitChar (h d (List.mem_cons_self d t))]
    exact ih _ (fun x hx => h x (List.mem_cons_of_mem d hx))

theorem natToChars_ne_nil (n : Nat) : natToChars n ≠ [] := by
  unfold natToChars
  by_cases hn : n = 0
  · simp [hn]
  · simp only [hn, if_false]
    intro hcontra
    rw [List.reverse_eq_nil_iff, List.map_eq_nil_iff] at hcontra
    obtain ⟨f, hf⟩ : ∃ f, n = f + 1 := ⟨n - 1, by omega⟩
    rw [hf] at hcontra
    simp [natDigsRev] at hcontra

theorem natToChars_all_isDig (n : Nat) : (natToChars n).all isDig = true := by
  unfold natToChars
  by_cases hn : n = 0
  · simp [hn]; decide
  · simp only [hn, if_false, List.all_eq_true]
    intro c hc
    rw [List.mem_reverse, List.mem_map] at hc
    obtain ⟨d, hd, rfl⟩ := hc
    exact isDig_digitChar (natDigsRev_lt_ten n n d hd)

theorem parseNatChars_natToChars (n : Nat) :
    parseNatChars (natToChars n) = some n := by
  by_cases hn : n = 0
  · subst hn; decide
  · unfold parseNatChars
    rw [if_neg (natToChars_ne_nil n), if_pos (natToChars_all_isDig n)]
    congr 1
    unfold natToChars
    simp only [hn, if_false]
    rw [← List.map_reverse]
    rw [List.foldl_map]
    rw [foldl_digits_congr _ _ (fun d hd =>
      natDigsRev_lt_ten n n d (List.mem_reverse.mp hd))]
    rw [foldl_reverse_listVal]
    rw [listVal_natDigsRev n n (Nat.le_refl n)]
    simp

theorem isDig_head_natToChars {n : Nat} {c : Char} {rest : List Char}
    (h : natToChars n = c :: rest) : isDig c = true := by
  have hall := natToChars_all_isDig n
  rw [h] at hall
  simp only [List.all_cons, Bool.and_eq_true] at hall
  exact hall.1

theorem parseIntChars_intToDecChars (v : Int) :
    parseIntChars (intToDecChars v) = some v := by
  by_cases hv : v < 0
  · unfold intToDecChars
    rw [if_pos hv]
    have hhd : ('-' :: natToChars v.natAbs).head? = some '-' := rfl
    unfold parseIntChars
    rw [if_pos hhd, List.tail_cons, parseNatChars_natToChars, Option.map_some']
    congr 1
    omega
  · unfold intToDecChars
    rw [if_neg hv]
    rcases hcons : natToChars v.toNat with _ | ⟨c, rest⟩
    · exact absurd hcons (natToChars_ne_nil _)
    · have hdig := isDig_head_natToChars hcons
      have hcne1 : ¬((c :: rest).head? = some '-') := by
        intro hc
        simp only [List.head?_cons, Option.some.injEq] at hc
        subst hc; simp [isDig] at hdig
      have hcne2 : ¬((c :: rest).head? = some '+') := by
        intro hc
        simp only [List.head?_cons, Option.some.injEq] at hc
        subst hc; simp [isDig] at hdig
      unfold parseIntChars
      rw [if_neg hcne1, if_neg hcne2, ← hcons, parseNatChars_natToChars,
        Option.map_some']
      congr 1
      omega

theorem intToDecChars_no_ws (v : Int) : ∀ c ∈ intToDecChars v, isWs c = false := by
  intro c hc
  have hcase : c = '-' ∨ isDig c = true := by
    unfold intToDecChars at hc
    by_cases hv : v < 0
    · rw [if_pos hv] at hc
      rcases List.mem_cons.mp hc with h | h
      · exact Or.inl h
      · right
        have hall := natToChars_all_isDig v.natAbs
        rw [List.all_eq_true] at hall
        exact hall c h
    · rw [if_neg hv] at hc
      right
      have hall := natToChars_all_isDig v.toNat
      rw [List.all_eq_true] at hall
      exact hall c hc
  rcases hcase with h | h
  · subst h; decide
  · simp only [isDig, Bool.and_eq_true, decide_eq_true_eq] at h
    simp only [isWs, Bool.or_eq_false_iff, decide_eq_false_iff_not]
    omega

theorem rustTrim_intToDecStr (v : Int) : rustTrim (intToDecStr v) = intToDecStr v := by
  unfold rustTrim intToDecStr
  congr 1
  exact trimChars_eq_self (intToDecChars_no_ws v)

/-- Round trip: parsing the decimal rendering of any in-range `i32`
(after the trim performed by `read_string`) yields the value back. -/
theorem parseI32_intToDecStr (v : Int)
    (h1 : -2147483648 ≤ v) (h2 : v ≤ 2147483647) :
    parseI32 (rustTrim (intToDecStr v)) = some v := by
  rw [rustTrim_intToDecStr]
  have hdata : (intToDecStr v).data = intToDecChars v := rfl
  unfold parseI32
  rw [hdata, parseIntChars_intToDecChars]
  exact if_pos ⟨h1, h2⟩

/-! The sysfs store model (rust/src/sysfs.rs). -/

/-- Error taxonomy of the sysfs layer (`sysfs::Error`): absent path,
catch-all I/O failure (`Error::Io`), and integer parse failure. -/
inductive SysErr where
  | notFound (path : String)
  | ioFail (path : String)
  | parseFail (path : String) (content : String)
deriving DecidableEq

/-- A backing node: either readable content, or a node that is present
(so `Path::exists` is true) but whose reads fail with an I/O error — a
write-only sysfs attribute, or any node on which `fs::read_to_string`
returns a non-NotFound error. -/
inductive FileNode where
  | content (c : String)
  | unreadable
deriving DecidableEq

/-- The backing store: an association list from path strings to nodes; a
key being present models the sysfs node existing. -/
abbrev Fs := List (String × FileNode)

/-- First-match association-list lookup. -/
def fsLookup : Fs → String → Option FileNode
  | [], _ => none
  | (q, w) :: rest, p => if q = p then some w else fsLookup rest p

/-- Model of `std::path::Path::exists` on the store. -/
def pathExists (fs : Fs) (p : String) : Bool :=
  (fsLookup fs p).isSome

/-- Model of `fs::write`: replace the node at `p` with the given content
if present, else create it (writes in the service are always guarded by
existence, so the create branch is never reached from the modelled
operations; a successful write leaves readable content behind). -/
def fsWrite : Fs → String → String → Fs
  | [], p, v => [(p, FileNode.content v)]
  | (q, w) :: rest, p, v =>
    if q = p then (p, FileNode.content v) :: rest
    else (q, w) :: fsWrite rest p v

/-- Model of `sysfs::read_string`: the trimmed content of `p`, `NotFound`
if absent, and `Io` if the node is present but unreadable (matching
`fs::read_to_string`'s error mapping in the source). -/
def readStringPath (fs : Fs) (p : String) : Except SysErr String :=
  match fsLookup fs p with
  | some (.content c) => .ok (rustTrim c)
  | some .unreadable => .error (.ioFail p)
  | none => .error (.notFound p)

/-- Model of `sysfs::read_int`: trimmed content parsed as an `i32`. -/
def readIntPath (fs : Fs) (p : String) : Except SysErr Int :=
  match readStringPath fs p with
  | .error e => .error e
  | .ok content =>
    match parseI32 content with
    | some v => .ok v
    | none => .error (.parseFail p content)

/-- Model of `sysfs::write_string` on a raw path. -/
def writeStringPath (fs : Fs) (p : String) (v : String) : Fs :=
  fsWrite fs p v

/-- Model of `sysfs::SysfsPath`: a primary location and an optional
alternate. -/
structure SysfsPath where
  primary : String
  alternate : Option String
deriving DecidableEq

/-- Model of `SysfsPath::resolve`: the primary if it exists, else the
alternate if present and existing. -/
def SysfsPath.resolve (sp : SysfsPath) (fs : Fs) : Option String :=
  if pathExists fs sp.primary then some sp.primary
  else
    match sp.alternate with
    | some alt => if pathExists fs alt then some alt else none
    | none => none

/-- Model of `SysfsPath::exists` (named `present` because `exists` is not
a usable identifier in Lean). -/
def SysfsPath.present (sp : SysfsPath) (fs : Fs) : Bool :=
  (sp.resolve fs).isSome

/-- Model of `SysfsPath::read_string`. -/
def SysfsPath.read_string (sp : SysfsPath) (fs : Fs) : Except SysErr String :=
  match sp.resolve fs with
  | some p => readStringPath fs p
  | none => .error (.notFound sp.primary)

/-- Model of `SysfsPath::read_int`. -/
def SysfsPath.read_int (sp : SysfsPath) (fs : Fs) : Except SysErr Int :=
  match sp.resolve fs with
  | some p => readIntPath fs p
  | none => .error (.notFound sp.primary)

/-- Model of `SysfsPath::write_string`: fails with `NotFound` when the
reference resolves to no existing location. -/
def SysfsPath.write_string (sp : SysfsPath) (fs : Fs) (v : String) :
    Except SysErr Fs :=
  match sp.resolve fs with
  | some p => .ok (fsWrite fs p v)
  | none => .error (.notFound sp.primary)

/-- Model of `SysfsPath::write_int`: writes the decimal rendering. -/
def SysfsPath.write_int (sp : SysfsPath) (fs : Fs) (v : Int) :
    Except SysErr Fs :=
  sp.write_string fs (intToDecStr v)

/-- Model of `SysfsPath::read_int_or`. -/
def SysfsPath.read_int_or (sp : SysfsPath) (fs : Fs) (d : Int) : Int :=
  match sp.read_int fs with
  | .ok v => v
  | .error _ => d

/-! Static path table (sysfs.rs `mod paths`), restricted to the nodes the
verified operations touch. -/

namespace paths

def CHARGING_POLICY : SysfsPath :=
  ⟨"/sys/class/power_supply/battery/charging_policy", none⟩

def CHARGE_STOP_LEVEL : SysfsPath :=
  ⟨"/sys/devices/platform/google,charger/charge_stop_level", none⟩

def CHARGE_START_LEVEL : SysfsPath :=
  ⟨"/sys/devices/platform/google,charger/charge_start_level", none⟩

def DD_STATE : SysfsPath :=
  ⟨"/sys/devices/platform/google,charger/dd_state", none⟩

def DD_SETTINGS : SysfsPath :=
  ⟨"/sys/devices/platform/google,charger/dd_settings", none⟩

def HEALTH_INDEX_STATS : SysfsPath :=
  ⟨"/sys/class/power_supply/battery/health_index_stats", none⟩

end paths

/-! Association-list laws for the store. -/

theorem fsLookup_fsWrite_self (fs : Fs) (p v : String) :
    fsLookup (fsWrite fs p v) p = some (FileNode.content v) := by
  induction fs with
  | nil => simp [fsWrite, fsLookup]
  | cons hd rest ih =>
    obtain ⟨q, w⟩ := hd
    by_cases hq : q = p
    · simp [fsWrite, hq, fsLookup]
    · simp [fsWrite, hq, fsLookup, ih]

theorem fsLookup_fsWrite_other (fs : Fs) (p v q : String) (h : q ≠ p) :
    fsLookup (fsWrite fs p v) q = fsLookup fs q := by
  have hpq : ¬p = q := fun hc => h hc.symm
  induction fs with
  | nil => simp [fsWrite, fsLookup, hpq]
  | cons hd rest ih =>
    obtain ⟨r, w⟩ := hd
    by_cases hr : r = p
    · subst hr
      simp [fsWrite, fsLookup, hpq]
    · simp only [fsWrite, hr, if_false, fsLookup]
      by_cases hrq : r = q
      · simp [hrq]
      · simp [hrq, ih]

theorem pathExists_fsWrite_of_present (fs : Fs) (p v : String)
    (h : pathExists fs p = true) (q : String) :
    pathExists (fsWrite fs p v) q = pathExists fs q := by
  by_cases hq : q = p
  · subst hq
    have h' : (fsLookup fs q).isSome = true := h
    simp [pathExists, fsLookup_fsWrite_self, h']
  · simp [pathExists, fsLookup_fsWrite_other fs p v q hq]

/-! Caller-facing error kinds and the service layer (rust/src/service.rs). -/

/-- Caller-facing outcome kinds produced at the service boundary:
`invalidArgument` models `bad_arg`, `unsupportedOperation` models
`unsupported`, and `serviceSpecific` models `sysfs_err` (the spec's
`BackendFailure`). -/
inductive Status where
  | invalidArgument (msg : String)
  | unsupportedOperation (msg : String)
  | serviceSpecific (msg : String)
deriving DecidableEq

/-- Rendering of `sysfs::Error` used in diagnostic messages. -/
def SysErr.render : SysErr → String
  | .notFound p => "sysfs path not found: " ++ p
  | .ioFail p => "I/O error on " ++ p
  | .parseFail p c => "parse error: '" ++ c ++ "' from " ++ p

/-- Model of `sysfs_err`: wrap a sysfs error as a service-specific status. -/
def sysfsErr (e : SysErr) (ctx : String) : Status :=
  .serviceSpecific (ctx ++ ": " ++ e.render)

/-- Model of `bad_arg`. -/
def bad_arg (msg : String) : Status := .invalidArgument msg

/-- Model of `unsupported`. -/
def unsupported (msg : String) : Status := .unsupportedOperation msg

/-- One guarded, traced write step of `apply_levels`: the source pattern
`if cond && path.exists() { path.write_int(v).map_err(...)? }`.  The
returned list records the performed write as (path, written content). -/
def stepWrite (sp : SysfsPath) (cond : Prop) [Decidable cond] (ctx : String)
    (v : Int) (fs : Fs) : Except Status (Fs × List (String × String)) :=
  if cond ∧ sp.present fs then
    match sp.write_int fs v with
    | .ok fs1 => .ok (fs1, [(sp.primary, intToDecStr v)])
    | .error e => .error (sysfsErr e ctx)
  else .ok (fs, [])

/-- Store component of a guarded write step (total form). -/
def stepFs (sp : SysfsPath) (cond : Prop) [Decidable cond] (v : Int)
    (fs : Fs) : Fs :=
  if cond ∧ sp.present fs then
    match sp.resolve fs with
    | some p => fsWrite fs p (intToDecStr v)
    | none => fs
  else fs

/-- Trace component of a guarded write step (total form). -/
def stepTr (sp : SysfsPath) (cond : Prop) [Decidable cond] (v : Int)
    (fs : Fs) : List (String × String) :=
  if cond ∧ sp.present fs then [(sp.primary, intToDecStr v)] else []

/-- A guarded write step never fails: the existence check in its guard is
exactly the resolution condition of the write. -/
theorem stepWrite_eq (sp : SysfsPath) (cond : Prop) [Decidable cond]
    (ctx : String) (v : Int) (fs : Fs) :
    stepWrite sp cond ctx v fs = .ok (stepFs sp cond v fs, stepTr sp cond v fs) := by
  unfold stepWrite stepFs stepTr
  by_cases h : cond ∧ sp.present fs
  · rw [if_pos h, if_pos h, if_pos h]
    have hres : (sp.resolve fs).isSome = true := h.2
    rcases hr : sp.resolve fs with _ | p
    · rw [hr] at hres; simp at hres
    · unfold SysfsPath.write_int SysfsPath.write_string
      rw [hr]
  · rw [if_neg h, if_neg h, if_neg h]

/-- Model of `BatteryService::apply_levels` (service.rs), instrumented
with the list of writes it performs, in order. -/
def applyLevels (fs : Fs) (stop start : Int) :
    Except Status (Fs × List (String × String)) :=
  let current_start := paths.CHARGE_START_LEVEL.read_int_or fs 0
  let current_stop := paths.CHARGE_STOP_LEVEL.read_int_or fs 100
  let prepRes : Except Status (Fs × List (String × String) × Option Int) :=
    if stop ≤ current_start ∧ start ≠ current_start then
      let prep := min start (wrap32 (stop - 1))
      match stepWrite paths.CHARGE_START_LEVEL (prep ≠ current_start)
          "write start (prep)" prep fs with
      | .ok (fs1, tr1) => .ok (fs1, tr1, some prep)
      | .error e => .error e
    else .ok (fs, ([] : List (String × String)), (none : Option Int))
  match prepRes with
  | .error e => .error e
  | .ok (fs1, tr1, prep_start) =>
    match stepWrite paths.CHARGE_STOP_LEVEL (stop ≠ current_stop)
        "write stop" stop fs1 with
    | .error e => .error e
    | .ok (fs2, tr2) =>
      match stepWrite paths.CHARGE_START_LEVEL
          (prep_start ≠ some start ∧ start ≠ current_start)
          "write start" start fs2 with
      | .error e => .error e
      | .ok (fs3, tr3) => .ok (fs3, tr1 ++ tr2 ++ tr3)

/-- In-memory cached charge thresholds (service.rs `Limits`). -/
structure Limits where
  stop : Int
  start : Int
deriving DecidableEq

/-- Service state: the cached limits plus the backing store.  The store is
part of the state because operations read and write it. -/
structure ServiceState where
  limits : Limits
  fs : Fs
deriving DecidableEq

/-- Initial service state used by `BatteryService::new` (the store itself
is whatever the hardware exposes). -/
def initialLimits : Limits := ⟨80, 70⟩

/-- Model of `BatteryService::setChargeLimit`.  Returns the post state,
the binder outcome, and the writes performed. -/
def setChargeLimit (s : ServiceState) (stop start : Int) :
    ServiceState × Except Status Unit × List (String × String) :=
  if ¬(50 ≤ stop ∧ stop ≤ 100) then
    (s, .error (bad_arg "stop must be 50-100"), [])
  else if wrap32 (stop - start) < 5 then
    (s, .error (bad_arg "gap must be >= 5"), [])
  else
    let s1 : ServiceState := ⟨⟨stop, start⟩, s.fs⟩
    if paths.CHARGING_POLICY.read_int_or s1.fs 1 = 2 then
      match applyLevels s1.fs stop start with
      | .ok (fs2, tr) => (⟨⟨stop, start⟩, fs2⟩, .ok (), tr)
      | .error e => (s1, .error e, [])
    else (s1, .ok (), [])

/-- Model of `BatteryService::getChargeLimit`: backing values, defaulting
to the cached limits when unreadable. -/
def getChargeLimit (s : ServiceState) : Int × Int :=
  (paths.CHARGE_STOP_LEVEL.read_int_or s.fs s.limits.stop,
   paths.CHARGE_START_LEVEL.read_int_or s.fs s.limits.start)

/-- Model of the AIDL `ChargingPolicy` enum.  The named constructors are
the recognized discriminants; `unrecognized` stands for any other wire
value (the source's `_` arm). -/
inductive ChargingPolicy where
  | DEFAULT
  | LONGLIFE
  | CUSTOM
  | ADAPTIVE
  | unrecognized (v : Int)
deriving DecidableEq

/-- Integer code written for each policy (the `match` at the top of
`setChargingPolicy`); `none` models the `_ => Err(bad_arg)` arm. -/
def policyVal : ChargingPolicy → Option Int
  | .DEFAULT => some 1
  | .LONGLIFE => some 2
  | .CUSTOM => some 2
  | .ADAPTIVE => some 3
  | .unrecognized _ => none

/-- Model of `BatteryService::setChargingPolicy`. -/
def setChargingPolicy (s : ServiceState) (policy : ChargingPolicy) :
    ServiceState × Except Status Unit × List (String × String) :=
  match policyVal policy with
  | none => (s, .error (bad_arg "invalid policy"), [])
  | some val =>
    if paths.CHARGING_POLICY.present s.fs then
      match paths.CHARGING_POLICY.write_int s.fs val with
      | .error e => (s, .error (sysfsErr e "write policy"), [])
      | .ok fs1 =>
        if policy = .CUSTOM then
          match applyLevels fs1 s.limits.stop s.limits.start with
          | .ok (fs2, tr) =>
            (⟨s.limits, fs2⟩, .ok (),
             (paths.CHARGING_POLICY.primary, intToDecStr val) :: tr)
          | .error e =>
            (⟨s.limits, fs1⟩, .error e,
             [(paths.CHARGING_POLICY.primary, intToDecStr val)])
        else
          (⟨s.limits, fs1⟩, .ok (),
           [(paths.CHARGING_POLICY.primary, intToDecStr val)])
    else (s, .ok (), [])

/-- Model of the AIDL `Feature` enum (`unrecognized` stands for any wire
value other than the named ones). -/
inductive Feature where
  | DOCK_DEFEND
  | CHARGE_DEADLINE
  | TRICKLE_DEFEND
  | WIRELESS
  | CPM
  | AACR
  | HEALTH
  | CSI_STATS
  | FW_UPDATE
  | CHARGE_LIMIT
  | FG_CYCLE
  | AAFV
  | AACT
  | AACP
  | WLC_FW
  | QI22
  | AACC
  | unrecognized (v : Int)
deriving DecidableEq

/-- Model of `BatteryService::setEnable` (AIDL `setFeatureEnabled`).  The
source's match guard `Feature::DOCK_DEFEND if dd_settings.exists()` sends
DOCK_DEFEND with an absent settings node to the `_` arm. -/
def setEnable (s : ServiceState) (feature : Feature) (enabled : Bool) :
    ServiceState × Except Status Unit × List (String × String) :=
  match feature with
  | .DOCK_DEFEND =>
    if paths.DD_SETTINGS.present s.fs then
      match paths.DD_SETTINGS.write_string s.fs (if enabled then "B2" else "1M") with
      | .ok fs1 =>
        (⟨s.limits, fs1⟩, .ok (),
         [(paths.DD_SETTINGS.primary, if enabled then "B2" else "1M")])
      | .error e => (s, .error (sysfsErr e "dock defend"), [])
    else (s, .error (unsupported "feature not controllable"), [])
  | _ => (s, .error (unsupported "feature not controllable"), [])

/-- Model of `sysfs::get_property_sysfs`: the static (feature, property)
to path table, translated arm by arm from the source. -/
def get_property_sysfs (feature : Feature) (prop : Int) : Option String :=
  match feature with
  | .CHARGE_DEADLINE =>
    if prop = 1 then some "/sys/class/power_supply/battery/charge_deadline_dryrun"
    else if prop = 12 then some "/sys/class/power_supply/battery/health_safety_margin"
    else none
  | .TRICKLE_DEFEND =>
    if prop = 0 then some "/sys/class/power_supply/battery/bd_trickle_enable"
    else if prop = 1 then some "/sys/class/power_supply/battery/bd_trickle_dry_run"
    else if prop = 3 then some "/sys/class/power_supply/battery/bd_trickle_rate"
    else if prop = 8 then some "/sys/class/power_supply/battery/bd_trickle_cnt"
    else if prop = 12 then some "/sys/class/power_supply/battery/bd_trickle_reset_sec"
    else if prop = 15 then some "/sys/class/power_supply/battery/bd_trickle_recharge_soc"
    else if prop = 33 then some "/sys/class/power_supply/battery/bd_trickle_version"
    else if prop = 50 then some "/sys/class/power_supply/battery/bd_trickle_cnt_thr"
    else none
  | .WIRELESS =>
    if prop = 5 then some "/sys/class/power_supply/wireless/device/mitigate_threshold"
    else none
  | .CPM =>
    if prop = 2 then some "/sys/devices/platform/google,cpm/dc_ctl"
    else if prop = 19 then some "/sys/devices/platform/google,charger/thermal_dc_fan_alarm"
    else if prop = 20 then some "/sys/devices/platform/google,cpm/thermal_mdis_fan_alarm"
    else none
  | .AACR =>
    if prop = 8 then some "/sys/class/power_supply/battery/aacr_cycle_grace"
    else if prop = 18 then some "/sys/class/power_supply/battery/aacr_state"
    else if prop = 21 then some "/sys/class/power_supply/battery/aacr_cycle_max"
    else if prop = 24 then some "/sys/class/power_supply/battery/aacr_min_capacity_rate"
    else if prop = 27 then some "/sys/class/power_supply/battery/aacr_cliff_capacity_rate"
    else if prop = 32 then some "/sys/class/power_supply/battery/aacr_profile"
    else none
  | .HEALTH =>
    if prop = 2 then some "/sys/class/power_supply/battery/health_algo"
    else if prop = 23 then some "/sys/class/power_supply/battery/health_set_trend_points"
    else if prop = 24 then some "/sys/class/power_supply/battery/health_set_low_boundary"
    else none
  | .CSI_STATS =>
    if prop = 25 then some "/sys/class/power_supply/battery/csi_stats"
    else none
  | .FW_UPDATE =>
    if prop = 0 then some "/sys/devices/platform/maxim,max77779fwu/enable_update"
    else if prop = 26 then some "/sys/devices/platform/maxim,max77779fwu/update_firmware"
    else none
  | .CHARGE_LIMIT =>
    if prop = 5 then some "/sys/class/power_supply/battery/charge_to_limit"
    else if prop = 39 then some "/sys/class/power_supply/battery/force_fcr_update_ops"
    else if prop = 41 then some "/sys/class/power_supply/maxfg/bypass_chargelimit_fcn_delta"
    else if prop = 42 then some "/sys/class/power_supply/maxfg/bypass_chargelimit_cycle_delta"
    else if prop = 43 then some "/sys/class/power_supply/maxfg/bypass_chargelimit_mode"
    else none
  | .FG_CYCLE =>
    if prop = 0 then some "/sys/class/power_supply/maxfg/fix_cycle_count"
    else none
  | .AAFV =>
    if prop = 18 then some "/sys/class/power_supply/battery/aafv_state"
    else if prop = 28 then some "/sys/class/power_supply/battery/aafv_apply_max"
    else if prop = 29 then some "/sys/class/power_supply/battery/aafv_max_offset"
    else if prop = 30 then some "/sys/class/power_supply/battery/aafv_cliff_cycle"
    else if prop = 31 then some "/sys/class/power_supply/battery/aafv_cliff_offset"
    else if prop = 32 then some "/sys/class/power_supply/battery/aafv_profile"
    else if prop = 38 then some "/sys/class/power_supply/maxfg/aafv_config"
    else none
  | .AACT =>
    if prop = 18 then some "/sys/class/power_supply/battery/aact_state"
    else if prop = 32 then some "/sys/class/power_supply/battery/aact_profile"
    else if prop = 34 then some "/sys/class/power_supply/battery/aact_cv_limits"
    else if prop = 35 then some "/sys/class/power_supply/battery/aact_temp_limits"
    else if prop = 36 then some "/sys/class/power_supply/battery/aact_chg_ecc"
    else none
  | .AACP =>
    if prop = 33 then some "/sys/class/power_supply/battery/aacp_version"
    else if prop = 37 then some "/sys/class/power_supply/battery/aacp_opt_out"
    else if prop = 44 then some "/sys/class/power_supply/battery/aacp_opt_out_cutoff_cycles"
    else none
  | .WLC_FW =>
    if prop = 0 then some "/sys/class/power_supply/wireless/device/rx_fwupdate"
    else if prop = 26 then some "/sys/class/power_supply/wireless/device/rx_vertag"
    else none
  | .QI22 =>
    if prop = 0 then some "/sys/class/power_supply/wireless/device/qi22_en_gpio"
    else none
  | .AACC =>
    if prop = 32 then some "/sys/class/power_supply/battery/aacc_chg_profile"
    else none
  | _ => none

/-- Model of `BatteryService::getStringProperty`. -/
def getStringProperty (s : ServiceState) (feature : Feature) (prop : Int) :
    Except Status String :=
  if 51 ≤ prop then .error (bad_arg "property out of range")
  else
    match get_property_sysfs feature prop with
    | some path =>
      if pathExists s.fs path then
        match readStringPath s.fs path with
        | .ok str => .ok str
        | .error e => .error (sysfsErr e "getStringProperty")
      else .ok ""
    | none => .ok ""

/-- Model of `BatteryService::setStringProperty`. -/
def setStringProperty (s : ServiceState) (feature : Feature) (prop : Int)
    (value : String) : ServiceState × Except Status Unit × List (String × String) :=
  if 51 ≤ prop then (s, .error (bad_arg "property out of range"), [])
  else
    match get_property_sysfs feature prop with
    | some path =>
      if pathExists s.fs path then
        (⟨s.limits, writeStringPath s.fs path value⟩, .ok (), [(path, value)])
      else (s, .ok (), [])
    | none => (s, .ok (), [])

/-! Health stats parsing (`parse_health_stats` / `getHealthStats`). -/

/-- Model of the AIDL `HealthStats` parcelable. -/
structure HealthStats where
  algo : Int
  healthIndex : Int
  capacityFcc : Int
  capacityRaw : Int
  capacityDesign : Int
  impedanceRaw : Int
  impedanceAvg : Int
  impedanceDesign : Int
  cycleCount : Int
  cycleCountDesign : Int
  tempBucket : Int
deriving DecidableEq

/-- The derived `Default` record: all fields zero. -/
def HealthStats.defaultRecord : HealthStats := ⟨0, 0, 0, 0, 0, 0, 0, 0, 0, 0, 0⟩

/-- Split a character list at the first occurrence of `c`, as Rust
`str::split_once`. -/
def splitOnceChar (c : Char) : List Char → Option (List Char × List Char)
  | [] => none
  | x :: xs =>
    if x = c then some ([], xs)
    else
      match splitOnceChar c xs with
      | some (l, r) => some (x :: l, r)
      | none => none

/-- Strip one trailing carriage return, as Rust `str::lines` does on each
line that ended in `\r\n`. -/
def stripCR (l : List Char) : List Char :=
  match l.getLast? with
  | some '\r' => l.dropLast
  | _ => l

/-- Model of Rust `str::lines`: split on `\n`, dropping a final empty
segment (trailing newline) and a `\r` preceding each `\n`. -/
def rustLines (s : String) : List String :=
  let parts := s.data.splitOnP (fun c => c == '\n')
  let main := (parts.dropLast.map stripCR).map String.mk
  match parts.getLast? with
  | some [] => main
  | some lst => main ++ [String.mk lst]
  | none => main

/-- The loop body of `parse_health_stats` over the lines of the blob.  A
line that does not split at a colon, or whose prefix is not an integer,
aborts the whole scan (the source's `?` inside the `for` loop). -/
def healthScan (algo : Int) : List String → Option HealthStats
  | [] => none
  | line :: rest =>
    match splitOnceChar ':' line.data with
    | none => none
    | some (a, r) =>
      match parseI32 (rustTrim (String.mk a)) with
      | none => none
      | some id =>
        if id ≠ algo then healthScan algo rest
        else
          match (r.splitOnP (fun c => c == ',' || isWs c)).filterMap
              (fun t => parseI32 (String.mk t)) with
          | v0 :: v1 :: v2 :: v3 :: v4 :: v5 :: v6 :: v7 :: v8 :: v9 :: _ =>
            some ⟨algo, v0, v1, v2, v3, v4, v5, v6, v7, v8, v9⟩
          | _ => healthScan algo rest

/-- Model of `BatteryService::parse_health_stats`. -/
def parseHealthStats (fs : Fs) (algo : Int) : Option HealthStats :=
  match paths.HEALTH_INDEX_STATS.read_string fs with
  | .ok content => healthScan algo (rustLines content)
  | .error _ => none

/-- Model of the AIDL `HealthAlgo` enum. -/
inductive HealthAlgo where
  | GOOGLE
  | MAXIM
  | unrecognized (v : Int)
deriving DecidableEq

/-- Integer code for a health algorithm (the `match` in `getHealthStats`). -/
def algoCode : HealthAlgo → Int
  | .GOOGLE => 1
  | .MAXIM => 2
  | .unrecognized _ => 0

/-- Model of `BatteryService::getHealthStats`: total, defaulting to the
all-zero record when parsing yields nothing. -/
def getHealthStats (s : ServiceState) (algo : HealthAlgo) : HealthStats :=
  (parseHealthStats s.fs (algoCode algo)).getD HealthStats.defaultRecord

/-! Support lemmas about resolution and guarded writes. -/

theorem resolve_isSome_pathExists {sp : SysfsPath} {fs : Fs} {p : String}
    (h : sp.resolve fs = some p) : pathExists fs p = true := by
  unfold SysfsPath.resolve at h
  by_cases hp : pathExists fs sp.primary = true
  · rw [if_pos hp] at h
    cases h
    exact hp
  · rw [if_neg hp] at h
    rcases halt : sp.alternate with _ | alt
    · rw [halt] at h; cases h
    · rw [halt] at h
      have h' : (if pathExists fs alt = true then some alt else none) = some p := h
      by_cases ha : pathExists fs alt = true
      · rw [if_pos ha] at h'
        cases h'
        exact ha
      · rw [if_neg ha] at h'; cases h'

theorem pathExists_stepFs (sp : SysfsPath) (cond : Prop) [Decidable cond]
    (v : Int) (fs : Fs) (q : String) :
    pathExists (stepFs sp cond v fs) q = pathExists fs q := by
  unfold stepFs
  split
  · rcases hr : sp.resolve fs with _ | p
    · rfl
    · exact pathExists_fsWrite_of_present fs p _ (resolve_isSome_pathExists hr) q
  · rfl

theorem resolve_stepFs (sp : SysfsPath) (cond : Prop) [Decidable cond]
    (v : Int) (fs : Fs) (sp' : SysfsPath) :
    sp'.resolve (stepFs sp cond v fs) = sp'.resolve fs := by
  unfold SysfsPath.resolve
  simp only [pathExists_stepFs]

theorem present_stepFs (sp : SysfsPath) (cond : Prop) [Decidable cond]
    (v : Int) (fs : Fs) (sp' : SysfsPath) :
    sp'.present (stepFs sp cond v fs) = sp'.present fs := by
  unfold SysfsPath.present
  rw [resolve_stepFs]

theorem resolve_primary_only (sp : SysfsPath) (h : sp.alternate = none) (fs : Fs) :
    sp.resolve fs = if pathExists fs sp.primary then some sp.primary else none := by
  unfold SysfsPath.resolve
  rw [h]

theorem present_primary_only (sp : SysfsPath) (h : sp.alternate = none) (fs : Fs) :
    sp.present fs = pathExists fs sp.primary := by
  unfold SysfsPath.present
  rw [resolve_primary_only sp h]
  by_cases hp : pathExists fs sp.primary = true
  · rw [if_pos hp, hp]; rfl
  · rw [if_neg hp]
    have hfalse : pathExists fs sp.primary = false := by
      cases hb : pathExists fs sp.primary
      · rfl
      · exact absurd hb hp
    rw [hfalse]
    rfl

/-- Run of `apply_levels` when the transitional branch is taken
(`stop <= current_start && start != current_start`): no write can fail,
and the result is the composition of the three guarded steps. -/
theorem applyLevels_of_prep (fs : Fs) (stop start : Int)
    (h : stop ≤ paths.CHARGE_START_LEVEL.read_int_or fs 0 ∧
         start ≠ paths.CHARGE_START_LEVEL.read_int_or fs 0) :
    applyLevels fs stop start =
      (let cs := paths.CHARGE_START_LEVEL.read_int_or fs 0
       let cp := paths.CHARGE_STOP_LEVEL.read_int_or fs 100
       let prep := min start (wrap32 (stop - 1))
       let fs1 := stepFs paths.CHARGE_START_LEVEL (prep ≠ cs) prep fs
       let tr1 := stepTr paths.CHARGE_START_LEVEL (prep ≠ cs) prep fs
       let fs2 := stepFs paths.CHARGE_STOP_LEVEL (stop ≠ cp) stop fs1
       let tr2 := stepTr paths.CHARGE_STOP_LEVEL (stop ≠ cp) stop fs1
       let fs3 := stepFs paths.CHARGE_START_LEVEL
         (some prep ≠ some start ∧ start ≠ cs) start fs2
       let tr3 := stepTr paths.CHARGE_START_LEVEL
         (some prep ≠ some start ∧ start ≠ cs) start fs2
       Except.ok (fs3, tr1 ++ tr2 ++ tr3)) := by
  simp only [applyLevels]
  rw [if_pos h]
  rw [stepWrite_eq]
  simp only []
  rw [stepWrite_eq]
  simp only []
  rw [stepWrite_eq]

/-- Run of `apply_levels` when the transitional branch is skipped. -/
theorem applyLevels_of_noprep (fs : Fs) (stop start : Int)
    (h : ¬(stop ≤ paths.CHARGE_START_LEVEL.read_int_or fs 0 ∧
           start ≠ paths.CHARGE_START_LEVEL.read_int_or fs 0)) :
    applyLevels fs stop start =
      (let cs := paths.CHARGE_START_LEVEL.read_int_or fs 0
       let cp := paths.CHARGE_STOP_LEVEL.read_int_or fs 100
       let fs2 := stepFs paths.CHARGE_STOP_LEVEL (stop ≠ cp) stop fs
       let tr2 := stepTr paths.CHARGE_STOP_LEVEL (stop ≠ cp) stop fs
       let fs3 := stepFs paths.CHARGE_START_LEVEL
         ((none : Option Int) ≠ some start ∧ start ≠ cs) start fs2
       let tr3 := stepTr paths.CHARGE_START_LEVEL
         ((none : Option Int) ≠ some start ∧ start ≠ cs) start fs2
       Except.ok (fs3, ([] : List (String × String)) ++ tr2 ++ tr3)) := by
  simp only [applyLevels]
  rw [if_neg h]
  simp only []
  rw [stepWrite_eq]
  simp only []
  rw [stepWrite_eq]

/-- The coupled-write algorithm never fails in the store model: every
write is guarded by an existence check against an unchanged store. -/
theorem applyLevels_ok (fs : Fs) (stop start : Int) :
    ∃ out, applyLevels fs stop start = .ok out := by
  by_cases h : stop ≤ paths.CHARGE_START_LEVEL.read_int_or fs 0 ∧
      start ≠ paths.CHARGE_START_LEVEL.read_int_or fs 0
  · rw [applyLevels_of_prep fs stop start h]
    exact ⟨_, rfl⟩
  · rw [applyLevels_of_noprep fs stop start h]
    exact ⟨_, rfl⟩

/-! Spec-side write traces for claim C1.  These are written from the
claim's own wording, to be compared with the instrumented source model. -/

/-- Write trace asserted by the amended claim C1: transitional start write
`min(start, stop-1)` when the target stop does not exceed the current
start and the target start differs from the current start, gated on the
transitional value differing from the current start and the START
attribute existing; then the stop write; then the final start write
unless the transitional write already set the target. -/
def specTraceC1 (fs : Fs) (stop start : Int) : List (String × String) :=
  let cs := paths.CHARGE_START_LEVEL.read_int_or fs 0
  let cp := paths.CHARGE_STOP_LEVEL.read_int_or fs 100
  let prep := min start (wrap32 (stop - 1))
  (if stop ≤ cs ∧ start ≠ cs ∧ prep ≠ cs ∧
      paths.CHARGE_START_LEVEL.present fs = true
   then [(paths.CHARGE_START_LEVEL.primary, intToDecStr prep)] else [])
  ++ (if stop ≠ cp ∧ paths.CHARGE_STOP_LEVEL.present fs = true
      then [(paths.CHARGE_STOP_LEVEL.primary, intToDecStr stop)] else [])
  ++ (if ¬(stop ≤ cs ∧ start ≠ cs ∧ prep ≠ cs ∧
           paths.CHARGE_START_LEVEL.present fs = true ∧ prep = start)
         ∧ start ≠ cs ∧ paths.CHARGE_START_LEVEL.present fs = true
      then [(paths.CHARGE_START_LEVEL.primary, intToDecStr start)] else [])

/-- Write trace asserted by claim C1 exactly as stated: identical to
`specTraceC1` except that the transitional start write is gated on the
STOP attribute existing ("...and the stop attribute exists"). -/
def claimTraceC1 (fs : Fs) (stop start : Int) : List (String × String) :=
  let cs := paths.CHARGE_START_LEVEL.read_int_or fs 0
  let cp := paths.CHARGE_STOP_LEVEL.read_int_or fs 100
  let prep := min start (wrap32 (stop - 1))
  (if stop ≤ cs ∧ start ≠ cs ∧ prep ≠ cs ∧
      paths.CHARGE_STOP_LEVEL.present fs = true
   then [(paths.CHARGE_START_LEVEL.primary, intToDecStr prep)] else [])
  ++ (if stop ≠ cp ∧ paths.CHARGE_STOP_LEVEL.present fs = true
      then [(paths.CHARGE_STOP_LEVEL.primary, intToDecStr stop)] else [])
  ++ (if ¬(stop ≤ cs ∧ start ≠ cs ∧ prep ≠ cs ∧
           paths.CHARGE_STOP_LEVEL.present fs = true ∧ prep = start)
         ∧ start ≠ cs ∧ paths.CHARGE_START_LEVEL.present fs = true
      then [(paths.CHARGE_START_LEVEL.primary, intToDecStr start)] else [])

/-- The instrumented coupled-write model produces exactly the write
trace described by the amended claim C1, on every store and target. -/
theorem applyLevels_trace (fs : Fs) (stop start : Int) :
    ∃ fs', applyLevels fs stop start = .ok (fs', specTraceC1 fs stop start) := by
  by_cases hmain : stop ≤ paths.CHARGE_START_LEVEL.read_int_or fs 0 ∧
      start ≠ paths.CHARGE_START_LEVEL.read_int_or fs 0
  · rw [applyLevels_of_prep fs stop start hmain]
    have h1 : stepTr paths.CHARGE_START_LEVEL
        (min start (wrap32 (stop - 1)) ≠ paths.CHARGE_START_LEVEL.read_int_or fs 0)
        (min start (wrap32 (stop - 1))) fs
        = (if stop ≤ paths.CHARGE_START_LEVEL.read_int_or fs 0 ∧
              start ≠ paths.CHARGE_START_LEVEL.read_int_or fs 0 ∧
              min start (wrap32 (stop - 1)) ≠ paths.CHARGE_START_LEVEL.read_int_or fs 0 ∧
              paths.CHARGE_START_LEVEL.present fs = true
           then [(paths.CHARGE_START_LEVEL.primary, intToDecStr (min start (wrap32 (stop - 1))))]
           else []) := by
      unfold stepTr
      refine if_congr ?_ rfl rfl
      constructor
      · rintro ⟨hpc, hpres⟩
        exact ⟨hmain.1, hmain.2, hpc, hpres⟩
      · rintro ⟨_, _, hpc, hpres⟩
        exact ⟨hpc, hpres⟩
    have hp2 : paths.CHARGE_STOP_LEVEL.present
        (stepFs paths.CHARGE_START_LEVEL
          (min start (wrap32 (stop - 1)) ≠ paths.CHARGE_START_LEVEL.read_int_or fs 0)
          (min start (wrap32 (stop - 1))) fs)
        = paths.CHARGE_STOP_LEVEL.present fs := present_stepFs _ _ _ _ _
    have h2 : stepTr paths.CHARGE_STOP_LEVEL
        (stop ≠ paths.CHARGE_STOP_LEVEL.read_int_or fs 100) stop
        (stepFs paths.CHARGE_START_LEVEL
          (min start (wrap32 (stop - 1)) ≠ paths.CHARGE_START_LEVEL.read_int_or fs 0)
          (min start (wrap32 (stop - 1))) fs)
        = (if stop ≠ paths.CHARGE_STOP_LEVEL.read_int_or fs 100 ∧
              paths.CHARGE_STOP_LEVEL.present fs = true
           then [(paths.CHARGE_STOP_LEVEL.primary, intToDecStr stop)]
           else []) := by
      unfold stepTr
      rw [hp2]

    have hp3 : paths.CHARGE_START_LEVEL.present
        (stepFs paths.CHARGE_STOP_LEVEL
          (stop ≠ paths.CHARGE_STOP_LEVEL.read_int_or fs 100) stop
          (stepFs paths.CHARGE_START_LEVEL
            (min start (wrap32 (stop - 1)) ≠ paths.CHARGE_START_LEVEL.read_int_or fs 0)
            (min start (wrap32 (stop - 1))) fs))
        = paths.CHARGE_START_LEVEL.present fs := by
      rw [present_stepFs, present_stepFs]
    have h3 : stepTr paths.CHARGE_START_LEVEL
        (some (min start (wrap32 (stop - 1))) ≠ some start ∧
         start ≠ paths.CHARGE_START_LEVEL.read_int_or fs 0) start
        (stepFs paths.CHARGE_STOP_LEVEL
          (stop ≠ paths.CHARGE_STOP_LEVEL.read_int_or fs 100) stop
          (stepFs paths.CHARGE_START_LEVEL
            (min start (wrap32 (stop - 1)) ≠ paths.CHARGE_START_LEVEL.read_int_or fs 0)
            (min start (wrap32 (stop - 1))) fs))
        = (if ¬(stop ≤ paths.CHARGE_START_LEVEL.read_int_or fs 0 ∧
                start ≠ paths.CHARGE_START_LEVEL.read_int_or fs 0 ∧
                min start (wrap32 (stop - 1)) ≠ paths.CHARGE_START_LEVEL.read_int_or fs 0 ∧
                paths.CHARGE_START_LEVEL.present fs = true ∧
                min start (wrap32 (stop - 1)) = start)
               ∧ start ≠ paths.CHARGE_START_LEVEL.read_int_or fs 0 ∧
               paths.CHARGE_START_LEVEL.present fs = true
           then [(paths.CHARGE_START_LEVEL.primary, intToDecStr start)]
           else []) := by
      unfold stepTr
      rw [hp3]
      refine if_congr ?_ rfl rfl
      constructor
      · rintro ⟨⟨hps, hsc⟩, hpres⟩
        have hps' : ¬ min start (wrap32 (stop - 1)) = start := by simpa using hps
        exact ⟨fun hcontra => hps' hcontra.2.2.2.2, hsc, hpres⟩
      · rintro ⟨hnc, hsc, hpres⟩
        by_cases hps : min start (wrap32 (stop - 1)) = start
        · exfalso
          apply hnc
          refine ⟨hmain.1, hmain.2, ?_, hpres, hps⟩
          rw [hps]
          exact hmain.2
        · exact ⟨⟨by simpa using hps, hsc⟩, hpres⟩
    refine ⟨stepFs paths.CHARGE_START_LEVEL
      (some (min start (wrap32 (stop - 1))) ≠ some start ∧
       start ≠ paths.CHARGE_START_LEVEL.read_int_or fs 0) start
      (stepFs paths.CHARGE_STOP_LEVEL
        (stop ≠ paths.CHARGE_STOP_LEVEL.read_int_or fs 100) stop
        (stepFs paths.CHARGE_START_LEVEL
          (min start (wrap32 (stop - 1)) ≠ paths.CHARGE_START_LEVEL.read_int_or fs 0)
          (min start (wrap32 (stop - 1))) fs)), ?_⟩
    simp only [specTraceC1]
    rw [← h1, ← h2, ← h3]
  · rw [applyLevels_of_noprep fs stop start hmain]
    have h1 : (if stop ≤ paths.CHARGE_START_LEVEL.read_int_or fs 0 ∧
          start ≠ paths.CHARGE_START_LEVEL.read_int_or fs 0 ∧
          min start (wrap32 (stop - 1)) ≠ paths.CHARGE_START_LEVEL.read_int_or fs 0 ∧
          paths.CHARGE_START_LEVEL.present fs = true
       then [(paths.CHARGE_START_LEVEL.primary, intToDecStr (min start (wrap32 (stop - 1))))]
       else []) = ([] : List (String × String)) := by
      rw [if_neg]
      intro hc
      exact hmain ⟨hc.1, hc.2.1⟩
    have hp3 : paths.CHARGE_START_LEVEL.present
        (stepFs paths.CHARGE_STOP_LEVEL
          (stop ≠ paths.CHARGE_STOP_LEVEL.read_int_or fs 100) stop fs)
        = paths.CHARGE_START_LEVEL.present fs := present_stepFs _ _ _ _ _
    have h3 : stepTr paths.CHARGE_START_LEVEL
        ((none : Option Int) ≠ some start ∧
         start ≠ paths.CHARGE_START_LEVEL.read_int_or fs 0) start
        (stepFs paths.CHARGE_STOP_LEVEL
          (stop ≠ paths.CHARGE_STOP_LEVEL.read_int_or fs 100) stop fs)
        = (if ¬(stop ≤ paths.CHARGE_START_LEVEL.read_int_or fs 0 ∧
                start ≠ paths.CHARGE_START_LEVEL.read_int_or fs 0 ∧
                min start (wrap32 (stop - 1)) ≠ paths.CHARGE_START_LEVEL.read_int_or fs 0 ∧
                paths.CHARGE_START_LEVEL.present fs = true ∧
                min start (wrap32 (stop - 1)) = start)
               ∧ start ≠ paths.CHARGE_START_LEVEL.read_int_or fs 0 ∧
               paths.CHARGE_START_LEVEL.present fs = true
           then [(paths.CHARGE_START_LEVEL.primary, intToDecStr start)]
           else []) := by
      unfold stepTr
      rw [hp3]
      refine if_congr ?_ rfl rfl
      constructor
      · rintro ⟨⟨_, hsc⟩, hpres⟩
        exact ⟨fun hcontra => hmain ⟨hcontra.1, hcontra.2.1⟩, hsc, hpres⟩
      · rintro ⟨hnc, hsc, hpres⟩
        exact ⟨⟨fun hcontra => Option.noConfusion hcontra, hsc⟩, hpres⟩
    refine ⟨stepFs paths.CHARGE_START_LEVEL
      ((none : Option Int) ≠ some start ∧
       start ≠ paths.CHARGE_START_LEVEL.read_int_or fs 0) start
      (stepFs paths.CHARGE_STOP_LEVEL
        (stop ≠ paths.CHARGE_STOP_LEVEL.read_int_or fs 100) stop fs), ?_⟩
    simp only [specTraceC1]
    rw [h1, ← h3]
    exact rfl

deriving instance DecidableEq for Except

/-- C1 (amended): the coupled-write algorithm reads the current stop and
current start from the backing store (defaulting to 100 and 0 when
unreadable); if the target stop does not exceed the current start and the
target start differs from the current start, it first writes the
transitional value min(start, stop - 1) to the start attribute, but only
if that transitional value differs from the current start and the START
attribute exists (the claim said the stop attribute); it then writes the
target stop if it differs from the current stop and the stop attribute
exists; it finally writes the target start if the transitional step did
not already target it, it differs from the current start, and the start
attribute exists.  In particular, with current (stop=80, start=70) and
target (stop=60, start=55) it writes transitional start 55, then stop 60,
and skips the final start write. -/
theorem C1_coupled_write_trace :
    (∀ (fs : Fs) (stop start : Int),
       ∃ fs', applyLevels fs stop start = .ok (fs', specTraceC1 fs stop start))
    ∧ applyLevels
        [(paths.CHARGE_STOP_LEVEL.primary, FileNode.content "80"),
         (paths.CHARGE_START_LEVEL.primary, FileNode.content "70")] 60 55 =
      .ok ([(paths.CHARGE_STOP_LEVEL.primary, FileNode.content "60"),
            (paths.CHARGE_START_LEVEL.primary, FileNode.content "55")],
           [(paths.CHARGE_START_LEVEL.primary, "55"),
            (paths.CHARGE_STOP_LEVEL.primary, "60")]) :=
  ⟨applyLevels_trace, by decide⟩

/-- C1 counterexample: in a store where the start attribute exists with
current start 70 and the stop attribute is absent, applying target
(stop=60, start=65) makes the code write the transitional start 59 and
then the final start 65 (the code gates the transitional write on the
START attribute existing), whereas the claim as stated — which gates the
transitional write on the STOP attribute existing — predicts only the
single final start write. -/
theorem C1_counterexample :
    applyLevels [(paths.CHARGE_START_LEVEL.primary, FileNode.content "70")] 60 65 =
      .ok ([(paths.CHARGE_START_LEVEL.primary, FileNode.content "65")],
           [(paths.CHARGE_START_LEVEL.primary, "59"),
            (paths.CHARGE_START_LEVEL.primary, "65")])
    ∧ claimTraceC1 [(paths.CHARGE_START_LEVEL.primary, FileNode.content "70")] 60 65 =
        [(paths.CHARGE_START_LEVEL.primary, "65")]
    ∧ ([(paths.CHARGE_START_LEVEL.primary, "59"),
        (paths.CHARGE_START_LEVEL.primary, "65")] : List (String × String)) ≠
        [(paths.CHARGE_START_LEVEL.primary, "65")] :=
  ⟨by decide, by decide, by decide⟩

/-- C3: when one application of the coupled-write algorithm succeeds and
the backing stop and start attributes then read back exactly the written
target values, a second application of the same pair performs zero writes
(empty trace) and leaves the store unchanged: every current-vs-target
comparison is an equality, so all three write steps are skipped. -/
theorem C3_idempotent_reapply (fs fs' : Fs) (tr : List (String × String))
    (stop start : Int)
    (happly : applyLevels fs stop start = .ok (fs', tr))
    (hstop : paths.CHARGE_STOP_LEVEL.read_int fs' = .ok stop)
    (hstart : paths.CHARGE_START_LEVEL.read_int fs' = .ok start) :
    applyLevels fs' stop start = .ok (fs', []) := by
  have hcs : paths.CHARGE_START_LEVEL.read_int_or fs' 0 = start := by
    unfold SysfsPath.read_int_or
    rw [hstart]
  have hcp : paths.CHARGE_STOP_LEVEL.read_int_or fs' 100 = stop := by
    unfold SysfsPath.read_int_or
    rw [hstop]
  have hmain : ¬(stop ≤ paths.CHARGE_START_LEVEL.read_int_or fs' 0 ∧
      start ≠ paths.CHARGE_START_LEVEL.read_int_or fs' 0) := by
    rw [hcs]
    exact fun hc => hc.2 rfl
  rw [applyLevels_of_noprep fs' stop start hmain]
  have e2fs : stepFs paths.CHARGE_STOP_LEVEL
      (stop ≠ paths.CHARGE_STOP_LEVEL.read_int_or fs' 100) stop fs' = fs' := by
    unfold stepFs
    rw [if_neg]
    intro hc
    exact hc.1 hcp.symm
  have e2tr : stepTr paths.CHARGE_STOP_LEVEL
      (stop ≠ paths.CHARGE_STOP_LEVEL.read_int_or fs' 100) stop fs' = [] := by
    unfold stepTr
    rw [if_neg]
    intro hc
    exact hc.1 hcp.symm
  have e3fs : stepFs paths.CHARGE_START_LEVEL
      ((none : Option Int) ≠ some start ∧
       start ≠ paths.CHARGE_START_LEVEL.read_int_or fs' 0) start fs' = fs' := by
    unfold stepFs
    rw [if_neg]
    intro hc
    exact hc.1.2 hcs.symm
  have e3tr : stepTr paths.CHARGE_START_LEVEL
      ((none : Option Int) ≠ some start ∧
       start ≠ paths.CHARGE_START_LEVEL.read_int_or fs' 0) start fs' = [] := by
    unfold stepTr
    rw [if_neg]
    intro hc
    exact hc.1.2 hcs.symm
  simp only [e2fs, e2tr, e3fs, e3tr]
  rfl

/-- Witness for C3: a concrete first application (current 80/70, target
60/55) after which both attributes read back the targets, and the second
application performs zero writes. -/
theorem C3_idempotent_reapply_witness :
    applyLevels
      [(paths.CHARGE_STOP_LEVEL.primary, FileNode.content "60"),
       (paths.CHARGE_START_LEVEL.primary, FileNode.content "55")] 60 55 =
      .ok ([(paths.CHARGE_STOP_LEVEL.primary, FileNode.content "60"),
            (paths.CHARGE_START_LEVEL.primary, FileNode.content "55")], []) :=
  C3_idempotent_reapply
    [(paths.CHARGE_STOP_LEVEL.primary, FileNode.content "80"),
     (paths.CHARGE_START_LEVEL.primary, FileNode.content "70")]
    [(paths.CHARGE_STOP_LEVEL.primary, FileNode.content "60"),
     (paths.CHARGE_START_LEVEL.primary, FileNode.content "55")]
    [(paths.CHARGE_START_LEVEL.primary, "55"),
     (paths.CHARGE_STOP_LEVEL.primary, "60")]
    60 55 (by decide) (by decide) (by decide)

/-- C4: for every i32 pair with stop < 50, stop > 100, or stop − start < 5,
setChargeLimit fails with InvalidArgument, leaves the whole state (cached
limits and backing store) unchanged, and performs no backing-store write. -/
theorem C4_set_charge_limit_invalid (s : ServiceState) (stop start : Int)
    (h1 : -2147483648 ≤ stop) (h2 : stop ≤ 2147483647)
    (h3 : -2147483648 ≤ start) (h4 : start ≤ 2147483647)
    (hbad : stop < 50 ∨ 100 < stop ∨ stop - start < 5) :
    ∃ msg, setChargeLimit s stop start = (s, .error (.invalidArgument msg), []) := by
  unfold setChargeLimit
  by_cases hrange : 50 ≤ stop ∧ stop ≤ 100
  · rw [if_neg (not_not_intro hrange)]
    have hgap : stop - start < 5 := by
      rcases hbad with h | h | h
      · omega
      · omega
      · exact h
    have hwrap : wrap32 (stop - start) = stop - start :=
      wrap32_eq_self _ (by omega) (by omega)
    rw [if_pos (by rw [hwrap]; exact hgap)]
    exact ⟨_, rfl⟩
  · rw [if_pos hrange]
    exact ⟨_, rfl⟩

/-- Witness for C4: a concrete rejected call (stop = 40 below the range)
on a concrete state, returning InvalidArgument with no state change. -/
theorem C4_set_charge_limit_invalid_witness :
    ∃ msg, setChargeLimit ⟨⟨80, 70⟩, []⟩ 40 0 =
      (⟨⟨80, 70⟩, []⟩, .error (.invalidArgument msg), []) :=
  C4_set_charge_limit_invalid ⟨⟨80, 70⟩, []⟩ 40 0 (by decide) (by decide)
    (by decide) (by decide) (Or.inl (by decide))

/-- Structural fact used for the limits invariant: a setChargeLimit call
either leaves the cached limits unchanged (rejection or backend-failure
path before mutation) or stores exactly the validated pair. -/
theorem setChargeLimit_limits (s : ServiceState) (stop start : Int) :
    ((setChargeLimit s stop start).1).limits = s.limits ∨
    (((setChargeLimit s stop start).1).limits = ⟨stop, start⟩ ∧
     50 ≤ stop ∧ stop ≤ 100 ∧ ¬wrap32 (stop - start) < 5) := by
  unfold setChargeLimit
  by_cases h1 : ¬(50 ≤ stop ∧ stop ≤ 100)
  · rw [if_pos h1]
    left
    rfl
  · rw [if_neg h1]
    by_cases h2 : wrap32 (stop - start) < 5
    · rw [if_pos h2]
      left
      rfl
    · rw [if_neg h2]
      right
      push_neg at h1
      refine ⟨?_, h1.1, h1.2, h2⟩
      simp only []
      by_cases hpol : paths.CHARGING_POLICY.read_int_or s.fs 1 = 2
      · rw [if_pos hpol]
        obtain ⟨⟨fs2, tr⟩, happ⟩ := applyLevels_ok s.fs stop start
        rw [happ]
      · rw [if_neg hpol]

/-- One service-visible transition: a setChargeLimit call with i32
arguments (taking the resulting state whether it succeeds or fails), or
any of the other operations and environment effects — all of which leave
the cached limits untouched and change only the backing store. -/
inductive Step (s : ServiceState) : ServiceState → Prop where
  | chargeLimit (stop start : Int)
      (h1 : -2147483648 ≤ stop) (h2 : stop ≤ 2147483647)
      (h3 : -2147483648 ≤ start) (h4 : start ≤ 2147483647) :
      Step s (setChargeLimit s stop start).1
  | env (fs' : Fs) : Step s ⟨s.limits, fs'⟩

/-- States reachable from service construction: the limits start at the
defaults and evolve only by Step transitions. -/
inductive Reachable : ServiceState → Prop where
  | init (fs : Fs) : Reachable ⟨initialLimits, fs⟩
  | step {s s' : ServiceState} : Reachable s → Step s s' → Reachable s'

/-- C5: in every reachable state the cached limits satisfy
50 ≤ stop ≤ 100 and stop − start ≥ 5; the limits are initialized to
(80, 70) at construction, and the operations other than setChargeLimit
(modelled here: setChargingPolicy, setEnable, setStringProperty) never
mutate them, while setChargeLimit validates before mutating. -/
theorem C5_limits_invariant :
    initialLimits = ⟨80, 70⟩
    ∧ (∀ s, Reachable s →
        50 ≤ s.limits.stop ∧ s.limits.stop ≤ 100 ∧
        5 ≤ s.limits.stop - s.limits.start)
    ∧ (∀ s p, ((setChargingPolicy s p).1).limits = s.limits)
    ∧ (∀ s f en, ((setEnable s f en).1).limits = s.limits)
    ∧ (∀ s f prop v, ((setStringProperty s f prop v).1).limits = s.limits) := by
  refine ⟨rfl, ?_, ?_, ?_, ?_⟩
  · intro s hreach
    induction hreach with
    | init fs => refine ⟨?_, ?_, ?_⟩ <;> norm_num [initialLimits]
    | step hr hstep ih =>
      rename_i sc sc'
      cases hstep with
      | env fs' => exact ih
      | chargeLimit stop start h1 h2 h3 h4 =>
        rcases setChargeLimit_limits sc stop start with heq | ⟨heq, hg1, hg2, hg3⟩
        · rw [heq]
          exact ih
        · rw [heq]
          show 50 ≤ stop ∧ stop ≤ 100 ∧ 5 ≤ stop - start
          refine ⟨hg1, hg2, ?_⟩
          unfold wrap32 at hg3
          omega
  · intro s p
    unfold setChargingPolicy
    rcases policyVal p with _ | val
    · rfl
    · simp only []
      by_cases hpres : paths.CHARGING_POLICY.present s.fs = true
      · rw [if_pos hpres]
        rcases hw : paths.CHARGING_POLICY.write_int s.fs val with e | fs1
        · rfl
        · simp only []
          by_cases hc : p = ChargingPolicy.CUSTOM
          · rw [if_pos hc]
            rcases ha : applyLevels fs1 s.limits.stop s.limits.start with e | ⟨fs2, tr⟩
            · rfl
            · rfl
          · rw [if_neg hc]
      · rw [if_neg hpres]
  · intro s f en
    unfold setEnable
    cases f <;> try rfl
    case DOCK_DEFEND =>
      by_cases hpres : paths.DD_SETTINGS.present s.fs = true
      · rw [if_pos hpres]
        rcases hw : paths.DD_SETTINGS.write_string s.fs (if en then "B2" else "1M") with e | fs1
        · rfl
        · rfl
      · rw [if_neg hpres]
  · intro s f prop v
    unfold setStringProperty
    by_cases hp : 51 ≤ prop
    · rw [if_pos hp]
    · rw [if_neg hp]
      rcases get_property_sysfs f prop with _ | path
      · rfl
      · simp only []
        by_cases hpe : pathExists s.fs path = true
        · rw [if_pos hpe]
        · rw [if_neg hpe]

/-- Witness for C5: the freshly constructed service state satisfies the
invariant. -/
theorem C5_limits_invariant_witness :
    50 ≤ (ServiceState.mk initialLimits []).limits.stop ∧
    (ServiceState.mk initialLimits []).limits.stop ≤ 100 ∧
    5 ≤ (ServiceState.mk initialLimits []).limits.stop -
        (ServiceState.mk initialLimits []).limits.start :=
  C5_limits_invariant.2.1 ⟨initialLimits, []⟩ (Reachable.init [])


theorem read_int_or_congr (sp : SysfsPath) (halt : sp.alternate = none)
    (fs1 fs2 : Fs) (h : fsLookup fs1 sp.primary = fsLookup fs2 sp.primary)
    (d : Int) : sp.read_int_or fs1 d = sp.read_int_or fs2 d := by
  have hex : pathExists fs1 sp.primary = pathExists fs2 sp.primary := by
    unfold pathExists
    rw [h]
  unfold SysfsPath.read_int_or SysfsPath.read_int
  rw [resolve_primary_only sp halt, resolve_primary_only sp halt, hex]
  by_cases he : pathExists fs2 sp.primary = true
  · rw [if_pos he]
    simp only []
    unfold readIntPath readStringPath
    rw [h]
  · rw [if_neg he]

theorem read_int_or_write_self (sp : SysfsPath) (halt : sp.alternate = none)
    (fs : Fs) (hex : pathExists fs sp.primary = true) (v d : Int)
    (hv1 : -2147483648 ≤ v) (hv2 : v ≤ 2147483647) :
    sp.read_int_or (fsWrite fs sp.primary (intToDecStr v)) d = v := by
  have hex' : pathExists (fsWrite fs sp.primary (intToDecStr v)) sp.primary = true := by
    rw [pathExists_fsWrite_of_present fs sp.primary _ hex]
    exact hex
  unfold SysfsPath.read_int_or SysfsPath.read_int
  rw [resolve_primary_only sp halt, if_pos hex']
  simp only []
  unfold readIntPath readStringPath
  rw [fsLookup_fsWrite_self]
  simp only []
  rw [parseI32_intToDecStr v hv1 hv2]

theorem read_int_or_self_default (sp : SysfsPath) (fs : Fs) (d : Int) :
    sp.read_int_or fs (sp.read_int_or fs d) = sp.read_int_or fs d := by
  unfold SysfsPath.read_int_or
  rcases sp.read_int fs with e | v
  · rfl
  · rfl

theorem stepFs_cases (sp : SysfsPath) (halt : sp.alternate = none)
    (c : Prop) [Decidable c] (v : Int) (fs : Fs) :
    (¬(c ∧ pathExists fs sp.primary = true) ∧ stepFs sp c v fs = fs) ∨
    ((c ∧ pathExists fs sp.primary = true) ∧
     stepFs sp c v fs = fsWrite fs sp.primary (intToDecStr v)) := by
  unfold stepFs
  rw [present_primary_only sp halt]
  by_cases h : c ∧ pathExists fs sp.primary = true
  · right
    refine ⟨h, ?_⟩
    rw [if_pos h, resolve_primary_only sp halt, if_pos h.2]
  · left
    refine ⟨h, ?_⟩
    rw [if_neg h]



theorem read_int_or_absent (sp : SysfsPath) (halt : sp.alternate = none)
    (fs : Fs) (hex : pathExists fs sp.primary = false) (d : Int) :
    sp.read_int_or fs d = d := by
  unfold SysfsPath.read_int_or SysfsPath.read_int
  rw [resolve_primary_only sp halt, if_neg (by rw [hex]; exact Bool.false_ne_true)]

theorem fsLookup_stepFs_ne (sp : SysfsPath) (halt : sp.alternate = none)
    (c : Prop) [Decidable c] (v : Int) (fs : Fs) (q : String)
    (hq : q ≠ sp.primary) :
    fsLookup (stepFs sp c v fs) q = fsLookup fs q := by
  rcases stepFs_cases sp halt c v fs with ⟨_, heq⟩ | ⟨_, heq⟩
  · rw [heq]
  · rw [heq, fsLookup_fsWrite_other fs sp.primary _ q hq]

theorem applyLevels_readback_stop (fs : Fs) (stop start : Int)
    (hs1 : -2147483648 ≤ stop) (hs2 : stop ≤ 2147483647)
    (fs' : Fs) (tr : List (String × String))
    (h : applyLevels fs stop start = .ok (fs', tr)) :
    paths.CHARGE_STOP_LEVEL.read_int_or fs' stop = stop := by
  have hne : paths.CHARGE_STOP_LEVEL.primary ≠ paths.CHARGE_START_LEVEL.primary := by decide
  by_cases hmain : stop ≤ paths.CHARGE_START_LEVEL.read_int_or fs 0 ∧
      start ≠ paths.CHARGE_START_LEVEL.read_int_or fs 0
  · rw [applyLevels_of_prep fs stop start hmain] at h
    simp only [] at h
    injection h with h
    injection h with hfs htr
    subst hfs
    rw [read_int_or_congr paths.CHARGE_STOP_LEVEL rfl _ _
      (fsLookup_stepFs_ne paths.CHARGE_START_LEVEL rfl _ _ _ _ hne) stop]
    rcases stepFs_cases paths.CHARGE_STOP_LEVEL rfl
        (stop ≠ paths.CHARGE_STOP_LEVEL.read_int_or fs 100) stop
        (stepFs paths.CHARGE_START_LEVEL
          (min start (wrap32 (stop - 1)) ≠ paths.CHARGE_START_LEVEL.read_int_or fs 0)
          (min start (wrap32 (stop - 1))) fs) with ⟨hnc, heq⟩ | ⟨⟨hc2, hex1⟩, heq⟩
    · rw [heq]
      rw [read_int_or_congr paths.CHARGE_STOP_LEVEL rfl _ _
        (fsLookup_stepFs_ne paths.CHARGE_START_LEVEL rfl _ _ _ _ hne) stop]
      by_cases heq2 : stop = paths.CHARGE_STOP_LEVEL.read_int_or fs 100
      · rw [heq2]
        exact read_int_or_self_default _ fs 100
      · have hex0 : pathExists
            (stepFs paths.CHARGE_START_LEVEL
              (min start (wrap32 (stop - 1)) ≠ paths.CHARGE_START_LEVEL.read_int_or fs 0)
              (min start (wrap32 (stop - 1))) fs)
            paths.CHARGE_STOP_LEVEL.primary = false := by
          rcases hb : pathExists
              (stepFs paths.CHARGE_START_LEVEL
                (min start (wrap32 (stop - 1)) ≠ paths.CHARGE_START_LEVEL.read_int_or fs 0)
                (min start (wrap32 (stop - 1))) fs)
              paths.CHARGE_STOP_LEVEL.primary with _ | _
          · rfl
          · exact absurd ⟨heq2, hb⟩ hnc
        have hex0' : pathExists fs paths.CHARGE_STOP_LEVEL.primary = false := by
          rw [pathExists_stepFs] at hex0
          exact hex0
        exact read_int_or_absent _ rfl fs hex0' stop
    · rw [heq]
      exact read_int_or_write_self _ rfl _ hex1 stop stop hs1 hs2
  · rw [applyLevels_of_noprep fs stop start hmain] at h
    simp only [] at h
    injection h with h
    injection h with hfs htr
    subst hfs
    rw [read_int_or_congr paths.CHARGE_STOP_LEVEL rfl _ _
      (fsLookup_stepFs_ne paths.CHARGE_START_LEVEL rfl _ _ _ _ hne) stop]
    rcases stepFs_cases paths.CHARGE_STOP_LEVEL rfl
        (stop ≠ paths.CHARGE_STOP_LEVEL.read_int_or fs 100) stop fs
          with ⟨hnc, heq⟩ | ⟨⟨hc2, hex1⟩, heq⟩
    · rw [heq]
      by_cases heq2 : stop = paths.CHARGE_STOP_LEVEL.read_int_or fs 100
      · rw [heq2]
        exact read_int_or_self_default _ fs 100
      · have hex0 : pathExists fs paths.CHARGE_STOP_LEVEL.primary = false := by
          rcases hb : pathExists fs paths.CHARGE_STOP_LEVEL.primary with _ | _
          · rfl
          · exact absurd ⟨heq2, hb⟩ hnc
        exact read_int_or_absent _ rfl fs hex0 stop
    · rw [heq]
      exact read_int_or_write_self _ rfl _ hex1 stop stop hs1 hs2



theorem applyLevels_readback_start (fs : Fs) (stop start : Int)
    (hs3 : -2147483648 ≤ start) (hs4 : start ≤ 2147483647)
    (fs' : Fs) (tr : List (String × String))
    (h : applyLevels fs stop start = .ok (fs', tr)) :
    paths.CHARGE_START_LEVEL.read_int_or fs' start = start := by
  have hne : paths.CHARGE_START_LEVEL.primary ≠ paths.CHARGE_STOP_LEVEL.primary := by decide
  by_cases hmain : stop ≤ paths.CHARGE_START_LEVEL.read_int_or fs 0 ∧
      start ≠ paths.CHARGE_START_LEVEL.read_int_or fs 0
  · rw [applyLevels_of_prep fs stop start hmain] at h
    simp only [] at h
    injection h with h
    injection h with hfs htr
    subst hfs
    rcases stepFs_cases paths.CHARGE_START_LEVEL rfl
        (some (min start (wrap32 (stop - 1))) ≠ some start ∧
         start ≠ paths.CHARGE_START_LEVEL.read_int_or fs 0) start
        (stepFs paths.CHARGE_STOP_LEVEL
          (stop ≠ paths.CHARGE_STOP_LEVEL.read_int_or fs 100) stop
          (stepFs paths.CHARGE_START_LEVEL
            (min start (wrap32 (stop - 1)) ≠ paths.CHARGE_START_LEVEL.read_int_or fs 0)
            (min start (wrap32 (stop - 1))) fs)) with ⟨hnc, heq⟩ | ⟨⟨hc3, hex2⟩, heq⟩
    · rw [heq]
      rw [read_int_or_congr paths.CHARGE_START_LEVEL rfl _ _
        (fsLookup_stepFs_ne paths.CHARGE_STOP_LEVEL rfl _ _ _ _ hne) start]
      by_cases hexs : pathExists
          (stepFs paths.CHARGE_START_LEVEL
            (min start (wrap32 (stop - 1)) ≠ paths.CHARGE_START_LEVEL.read_int_or fs 0)
            (min start (wrap32 (stop - 1))) fs)
          paths.CHARGE_START_LEVEL.primary = true
      · have hexs2 : pathExists
            (stepFs paths.CHARGE_STOP_LEVEL
              (stop ≠ paths.CHARGE_STOP_LEVEL.read_int_or fs 100) stop
              (stepFs paths.CHARGE_START_LEVEL
                (min start (wrap32 (stop - 1)) ≠ paths.CHARGE_START_LEVEL.read_int_or fs 0)
                (min start (wrap32 (stop - 1))) fs))
            paths.CHARGE_START_LEVEL.primary = true := by
          rw [pathExists_stepFs]
          exact hexs
        have hps : min start (wrap32 (stop - 1)) = start := by
          by_contra hcon
          exact hnc ⟨⟨fun hsome => hcon (Option.some.inj hsome), hmain.2⟩, hexs2⟩
        have hexfs : pathExists fs paths.CHARGE_START_LEVEL.primary = true := by
          rw [pathExists_stepFs] at hexs
          exact hexs
        rcases stepFs_cases paths.CHARGE_START_LEVEL rfl
            (min start (wrap32 (stop - 1)) ≠ paths.CHARGE_START_LEVEL.read_int_or fs 0)
            (min start (wrap32 (stop - 1))) fs with ⟨hnc1, _⟩ | ⟨_, heq1⟩
        · exfalso
          apply hnc1
          refine ⟨?_, hexfs⟩
          rw [hps]
          exact hmain.2
        · rw [heq1]
          have := read_int_or_write_self paths.CHARGE_START_LEVEL rfl fs hexfs
            (min start (wrap32 (stop - 1))) start (by rw [hps]; exact hs3) (by rw [hps]; exact hs4)
          rw [this, hps]
      · have hexf : pathExists
            (stepFs paths.CHARGE_START_LEVEL
              (min start (wrap32 (stop - 1)) ≠ paths.CHARGE_START_LEVEL.read_int_or fs 0)
              (min start (wrap32 (stop - 1))) fs)
            paths.CHARGE_START_LEVEL.primary = false := by
          rcases hb : pathExists
              (stepFs paths.CHARGE_START_LEVEL
                (min start (wrap32 (stop - 1)) ≠ paths.CHARGE_START_LEVEL.read_int_or fs 0)
                (min start (wrap32 (stop - 1))) fs)
              paths.CHARGE_START_LEVEL.primary with _ | _
          · rfl
          · exact absurd hb hexs
        exact read_int_or_absent _ rfl _ hexf start
    · rw [heq]
      exact read_int_or_write_self _ rfl _ hex2 start start hs3 hs4
  · rw [applyLevels_of_noprep fs stop start hmain] at h
    simp only [] at h
    injection h with h
    injection h with hfs htr
    subst hfs
    rcases stepFs_cases paths.CHARGE_START_LEVEL rfl
        ((none : Option Int) ≠ some start ∧
         start ≠ paths.CHARGE_START_LEVEL.read_int_or fs 0) start
        (stepFs paths.CHARGE_STOP_LEVEL
          (stop ≠ paths.CHARGE_STOP_LEVEL.read_int_or fs 100) stop fs)
          with ⟨hnc, heq⟩ | ⟨⟨hc3, hex2⟩, heq⟩
    · rw [heq]
      rw [read_int_or_congr paths.CHARGE_START_LEVEL rfl _ _
        (fsLookup_stepFs_ne paths.CHARGE_STOP_LEVEL rfl _ _ _ _ hne) start]
      by_cases hexs : pathExists
          (stepFs paths.CHARGE_STOP_LEVEL
            (stop ≠ paths.CHARGE_STOP_LEVEL.read_int_or fs 100) stop fs)
          paths.CHARGE_START_LEVEL.primary = true
      · have hstart_eq : start = paths.CHARGE_START_LEVEL.read_int_or fs 0 := by
          by_contra hcon
          exact hnc ⟨⟨fun hk => Option.noConfusion hk, hcon⟩, hexs⟩
        rw [hstart_eq]
        exact read_int_or_self_default _ fs 0
      · have hexf : pathExists fs paths.CHARGE_START_LEVEL.primary = false := by
          rw [pathExists_stepFs] at hexs
          rcases hb : pathExists fs paths.CHARGE_START_LEVEL.primary with _ | _
          · rfl
          · exact absurd hb hexs
        exact read_int_or_absent _ rfl fs hexf start
    · rw [heq]
      exact read_int_or_write_self _ rfl _ hex2 start start hs3 hs4



/-- C2 (amended): for every i32 pair with 50 <= stop <= 100 and
stop - start >= 5 (as computed in 32-bit arithmetic), when the
charging-policy attribute currently reads code 2 (CUSTOM) so that the
write path runs, setChargeLimit succeeds and a following getChargeLimit
returns exactly (stop, start); in the store model every guarded
backing-store write succeeds. -/
theorem C2_set_then_get (s : ServiceState) (stop start : Int)
    (h1 : 50 ≤ stop) (h2 : stop ≤ 100)
    (h3 : -2147483648 ≤ start) (h4 : start ≤ 2147483647)
    (hgap : 5 ≤ wrap32 (stop - start))
    (hpol : paths.CHARGING_POLICY.read_int_or s.fs 1 = 2) :
    ∃ s' tr, setChargeLimit s stop start = (s', .ok (), tr)
      ∧ getChargeLimit s' = (stop, start) := by
  unfold setChargeLimit
  rw [if_neg (not_not_intro ⟨h1, h2⟩),
    if_neg (by omega : ¬ wrap32 (stop - start) < 5)]
  simp only []
  rw [if_pos hpol]
  obtain ⟨⟨fs2, tr⟩, happ⟩ := applyLevels_ok s.fs stop start
  rw [happ]
  refine ⟨_, _, rfl, ?_⟩
  have hstop' := applyLevels_readback_stop s.fs stop start (by omega) (by omega)
    fs2 tr happ
  have hstart' := applyLevels_readback_start s.fs stop start h3 h4 fs2 tr happ
  show (paths.CHARGE_STOP_LEVEL.read_int_or fs2 stop,
        paths.CHARGE_START_LEVEL.read_int_or fs2 start) = (stop, start)
  rw [hstop', hstart']

/-- Witness for C2: concrete run with policy CUSTOM, both attributes
present at 80/70, target (60, 50). -/
theorem C2_set_then_get_witness :
    ∃ s' tr, setChargeLimit
        ⟨⟨80, 70⟩, [(paths.CHARGING_POLICY.primary, FileNode.content "2"),
                    (paths.CHARGE_STOP_LEVEL.primary, FileNode.content "80"),
                    (paths.CHARGE_START_LEVEL.primary, FileNode.content "70")]⟩ 60 50 =
        (s', .ok (), tr)
      ∧ getChargeLimit s' = (60, 50) :=
  C2_set_then_get _ 60 50 (by decide) (by decide) (by decide) (by decide)
    (by decide) (by decide)

/-- C2 counterexample to the claim as stated: with the charging-policy
attribute absent (so the current policy code defaults to 1, not CUSTOM)
and stale backing values stop=90/start=40, setChargeLimit(60, 50)
succeeds while performing no backing-store write at all (so "every write
performed succeeds" holds vacuously), yet getChargeLimit returns
(90, 40), not (60, 50). -/
theorem C2_counterexample :
    setChargeLimit
      ⟨⟨80, 70⟩, [(paths.CHARGE_STOP_LEVEL.primary, FileNode.content "90"),
                  (paths.CHARGE_START_LEVEL.primary, FileNode.content "40")]⟩ 60 50 =
      (⟨⟨60, 50⟩, [(paths.CHARGE_STOP_LEVEL.primary, FileNode.content "90"),
                   (paths.CHARGE_START_LEVEL.primary, FileNode.content "40")]⟩, .ok (), [])
    ∧ getChargeLimit
        ⟨⟨60, 50⟩, [(paths.CHARGE_STOP_LEVEL.primary, FileNode.content "90"),
                    (paths.CHARGE_START_LEVEL.primary, FileNode.content "40")]⟩ = (90, 40)
    ∧ ((90 : Int), (40 : Int)) ≠ ((60 : Int), (50 : Int)) :=
  ⟨by decide, by decide, by decide⟩

/-! Spec-side reading of getHealthStats (claim C6). -/

/-- First ten numeric fields mapped positionally to the stats record;
`none` when there are fewer than ten (the claim's "requires at least 10
numeric fields ... maps them positionally"). -/
def fieldsRecord (algo : Int) (v : List Int) : Option HealthStats :=
  match v with
  | v0 :: v1 :: v2 :: v3 :: v4 :: v5 :: v6 :: v7 :: v8 :: v9 :: _ =>
    some ⟨algo, v0, v1, v2, v3, v4, v5, v6, v7, v8, v9⟩
  | _ => none

/-- A line is well formed when it splits at a colon and its prefix parses
as an integer (a malformed line aborts the source's scan). -/
def wellFormedLine (line : String) : Bool :=
  match splitOnceChar ':' line.data with
  | none => false
  | some (a, _) => (parseI32 (rustTrim (String.mk a))).isSome

/-- Does the line's algoId equal the requested code? (claim C6's "line
whose algoId equals that code"). -/
def lineMatches (algo : Int) (line : String) : Bool :=
  match splitOnceChar ':' line.data with
  | none => false
  | some (a, _) =>
    match parseI32 (rustTrim (String.mk a)) with
    | none => false
    | some id => id = algo

/-- The record a line yields under the amended claim C6: its positional
record when its algoId equals the code and it has at least ten numeric
fields, else nothing. -/
def lineRecord (algo : Int) (line : String) : Option HealthStats :=
  match splitOnceChar ':' line.data with
  | none => none
  | some (a, r) =>
    match parseI32 (rustTrim (String.mk a)) with
    | none => none
    | some id =>
      if id = algo then
        fieldsRecord algo
          ((r.splitOnP (fun c => c == ',' || isWs c)).filterMap
            (fun t => parseI32 (String.mk t)))
      else none

/-- Selection asserted by claim C6 exactly as stated: take the first line
whose algoId equals the code; its record if it has at least ten numeric
fields, otherwise nothing (the all-default record after defaulting). -/
def claimHealthSel (algo : Int) (ls : List String) : Option HealthStats :=
  match ls.find? (lineMatches algo) with
  | none => none
  | some line => lineRecord algo line

theorem healthScan_cons (algo : Int) (line : String) (rest : List String)
    (a r : List Char) (id : Int)
    (hsplit : splitOnceChar ':' line.data = some (a, r))
    (hparse : parseI32 (rustTrim (String.mk a)) = some id) :
    healthScan algo (line :: rest) =
      (if id = algo then
        match fieldsRecord algo
            ((r.splitOnP (fun c => c == ',' || isWs c)).filterMap
              (fun t => parseI32 (String.mk t))) with
        | some rec => some rec
        | none => healthScan algo rest
      else healthScan algo rest) := by
  conv_lhs => rw [healthScan]
  rw [hsplit]
  simp only []
  rw [hparse]
  simp only []
  by_cases hid : id = algo
  · rw [if_neg (not_not_intro hid), if_pos hid]
    generalize (r.splitOnP (fun c => c == ',' || isWs c)).filterMap
      (fun t => parseI32 (String.mk t)) = v
    subst hid
    rcases v with _ | ⟨v0, v⟩
    · rfl
    rcases v with _ | ⟨v1, v⟩
    · rfl
    rcases v with _ | ⟨v2, v⟩
    · rfl
    rcases v with _ | ⟨v3, v⟩
    · rfl
    rcases v with _ | ⟨v4, v⟩
    · rfl
    rcases v with _ | ⟨v5, v⟩
    · rfl
    rcases v with _ | ⟨v6, v⟩
    · rfl
    rcases v with _ | ⟨v7, v⟩
    · rfl
    rcases v with _ | ⟨v8, v⟩
    · rfl
    rcases v with _ | ⟨v9, v⟩
    · rfl
    rfl
  · rw [if_pos hid, if_neg hid]

theorem lineRecord_eq (algo : Int) (line : String)
    (a r : List Char) (id : Int)
    (hsplit : splitOnceChar ':' line.data = some (a, r))
    (hparse : parseI32 (rustTrim (String.mk a)) = some id) :
    lineRecord algo line =
      (if id = algo then
        fieldsRecord algo
          ((r.splitOnP (fun c => c == ',' || isWs c)).filterMap
            (fun t => parseI32 (String.mk t)))
      else none) := by
  unfold lineRecord
  rw [hsplit]
  simp only []
  rw [hparse]

theorem healthScan_eq_spec (algo : Int) :
    ∀ ls : List String, (∀ l ∈ ls, wellFormedLine l = true) →
      healthScan algo ls = ls.findSome? (lineRecord algo) := by
  intro ls
  induction ls with
  | nil => intro _; rfl
  | cons line rest ih =>
    intro hwf
    have hline := hwf line (List.mem_cons_self _ _)
    unfold wellFormedLine at hline
    rcases hsplit : splitOnceChar ':' line.data with _ | ⟨a, r⟩
    · rw [hsplit] at hline
      exact absurd hline Bool.false_ne_true
    rw [hsplit] at hline
    simp only [] at hline
    rcases hparse : parseI32 (rustTrim (String.mk a)) with _ | id
    · rw [hparse] at hline
      exact absurd hline Bool.false_ne_true
    rw [healthScan_cons algo line rest a r id hsplit hparse]
    rw [List.findSome?_cons]
    rw [lineRecord_eq algo line a r id hsplit hparse]
    have hrest := ih (fun l hl => hwf l (List.mem_cons_of_mem _ hl))
    by_cases hid : id = algo
    · rw [if_pos hid]
      rw [if_pos hid]
      rcases fieldsRecord algo
          ((r.splitOnP (fun c => c == ',' || isWs c)).filterMap
            (fun t => parseI32 (String.mk t))) with _ | rec
      · exact hrest
      · rfl
    · rw [if_neg hid]
      rw [if_neg hid]
      exact hrest

/-- C6 (amended): getHealthStats is total (never fails): it maps the
requested algo to the code GOOGLE→1, MAXIM→2, anything else→0, and, when
the health-stats blob is readable and every line splits at a colon with
an integer algoId prefix, returns the positional record of the first
line whose algoId equals that code AND which has at least ten numeric
fields (healthIndex first, cycleCount eighth, tempBucket tenth), and the
all-default record when the blob is unreadable or no such line exists. -/
theorem C6_health_stats :
    (algoCode HealthAlgo.GOOGLE = 1 ∧ algoCode HealthAlgo.MAXIM = 2 ∧
     ∀ v, algoCode (HealthAlgo.unrecognized v) = 0)
    ∧ (∀ (s : ServiceState) (algo : HealthAlgo) (blob : String),
        paths.HEALTH_INDEX_STATS.read_string s.fs = .ok blob →
        (∀ l ∈ rustLines blob, wellFormedLine l = true) →
        getHealthStats s algo =
          ((rustLines blob).findSome? (lineRecord (algoCode algo))).getD
            HealthStats.defaultRecord)
    ∧ (∀ (s : ServiceState) (algo : HealthAlgo) (e : SysErr),
        paths.HEALTH_INDEX_STATS.read_string s.fs = .error e →
        getHealthStats s algo = HealthStats.defaultRecord) := by
  refine ⟨⟨rfl, rfl, fun v => rfl⟩, ?_, ?_⟩
  · intro s algo blob hread hwf
    unfold getHealthStats parseHealthStats
    rw [hread]
    simp only []
    rw [healthScan_eq_spec (algoCode algo) (rustLines blob) hwf]
  · intro s algo e hread
    unfold getHealthStats parseHealthStats
    rw [hread]
    rfl

/-- Witness for C6: the spec's own example blob, algo GOOGLE, yielding
healthIndex 95 and cycleCount 300. -/
theorem C6_health_stats_witness :
    getHealthStats
      ⟨⟨80, 70⟩, [(paths.HEALTH_INDEX_STATS.primary,
        FileNode.content "1: 95,4200,4300,4400,10,12,11,300,500,3")]⟩ HealthAlgo.GOOGLE =
      ⟨1, 95, 4200, 4300, 4400, 10, 12, 11, 300, 500, 3⟩ := by
  have h := C6_health_stats.2.1
    ⟨⟨80, 70⟩, [(paths.HEALTH_INDEX_STATS.primary,
      FileNode.content "1: 95,4200,4300,4400,10,12,11,300,500,3")]⟩ HealthAlgo.GOOGLE
    "1: 95,4200,4300,4400,10,12,11,300,500,3" (by decide) (by decide)
  rw [h]
  decide

/-- C6 counterexample to the claim as stated: when the FIRST line whose
algoId matches has fewer than ten numeric fields, the code does not
return the default record — it keeps scanning and returns the record of
a later matching line, while the claim predicts the all-default record. -/
theorem C6_counterexample :
    getHealthStats
      ⟨⟨80, 70⟩, [(paths.HEALTH_INDEX_STATS.primary,
        FileNode.content "1: 1,2\n1: 95,4200,4300,4400,10,12,11,300,500,3")]⟩ HealthAlgo.GOOGLE =
      ⟨1, 95, 4200, 4300, 4400, 10, 12, 11, 300, 500, 3⟩
    ∧ claimHealthSel 1
        (rustLines "1: 1,2\n1: 95,4200,4300,4400,10,12,11,300,500,3") = none
    ∧ (⟨1, 95, 4200, 4300, 4400, 10, 12, 11, 300, 500, 3⟩ : HealthStats) ≠
        HealthStats.defaultRecord :=
  ⟨by decide, by decide, by decide⟩

/-- A write through a primary-only reference to a present node succeeds
and replaces the node content. -/
theorem write_string_of_present (sp : SysfsPath) (halt : sp.alternate = none)
    (fs : Fs) (h : sp.present fs = true) (v : String) :
    sp.write_string fs v = .ok (fsWrite fs sp.primary v) := by
  unfold SysfsPath.write_string
  rw [present_primary_only sp halt] at h
  rw [resolve_primary_only sp halt, if_pos h]

theorem write_int_of_present (sp : SysfsPath) (halt : sp.alternate = none)
    (fs : Fs) (h : sp.present fs = true) (v : Int) :
    sp.write_int fs v = .ok (fsWrite fs sp.primary (intToDecStr v)) := by
  unfold SysfsPath.write_int
  exact write_string_of_present sp halt fs h (intToDecStr v)

/-- C7: setChargingPolicy maps DEFAULT→1, LONGLIFE→2, CUSTOM→2 (LONGLIFE
and CUSTOM share code 2; DEFAULT and ADAPTIVE are distinct), writes the
code to the charging-policy attribute, fails with InvalidArgument for an
unrecognized policy, succeeds without any write when the attribute is
absent, and for CUSTOM immediately re-applies the cached limits through
the coupled-write algorithm (a write or re-apply failure would surface as
the service-specific status produced by sysfsErr, the spec's
BackendFailure; in the store model these guarded writes succeed). -/
theorem C7_set_charging_policy :
    (policyVal ChargingPolicy.DEFAULT = some 1 ∧
     policyVal ChargingPolicy.LONGLIFE = some 2 ∧
     policyVal ChargingPolicy.CUSTOM = some 2 ∧
     policyVal ChargingPolicy.ADAPTIVE = some 3)
    ∧ (∀ s v, setChargingPolicy s (.unrecognized v) =
        (s, .error (Status.invalidArgument "invalid policy"), []))
    ∧ (∀ s p val, policyVal p = some val →
        paths.CHARGING_POLICY.present s.fs = false →
        setChargingPolicy s p = (s, .ok (), []))
    ∧ (∀ s p val, policyVal p = some val → p ≠ .CUSTOM →
        paths.CHARGING_POLICY.present s.fs = true →
        setChargingPolicy s p =
          (⟨s.limits, fsWrite s.fs paths.CHARGING_POLICY.primary (intToDecStr val)⟩,
           .ok (), [(paths.CHARGING_POLICY.primary, intToDecStr val)]))
    ∧ (∀ s, paths.CHARGING_POLICY.present s.fs = true →
        ∃ fs2 tr,
          applyLevels (fsWrite s.fs paths.CHARGING_POLICY.primary (intToDecStr 2))
            s.limits.stop s.limits.start = .ok (fs2, tr) ∧
          setChargingPolicy s .CUSTOM =
            (⟨s.limits, fs2⟩, .ok (),
             (paths.CHARGING_POLICY.primary, intToDecStr 2) :: tr)) := by
  refine ⟨⟨rfl, rfl, rfl, rfl⟩, ?_, ?_, ?_, ?_⟩
  · intro s v
    rfl
  · intro s p val hval habs
    unfold setChargingPolicy
    rw [hval]
    simp only []
    rw [if_neg (by rw [habs]; exact Bool.false_ne_true)]
  · intro s p val hval hnc hpres
    unfold setChargingPolicy
    rw [hval]
    simp only []
    rw [if_pos hpres, write_int_of_present paths.CHARGING_POLICY rfl s.fs hpres val]
    simp only []
    rw [if_neg hnc]
  · intro s hpres
    unfold setChargingPolicy
    simp only [policyVal]
    rw [if_pos hpres, write_int_of_present paths.CHARGING_POLICY rfl s.fs hpres 2]
    simp only []
    rw [if_pos trivial]
    obtain ⟨⟨fs2, tr⟩, happ⟩ :=
      applyLevels_ok (fsWrite s.fs paths.CHARGING_POLICY.primary (intToDecStr 2))
        s.limits.stop s.limits.start
    rw [happ]
    exact ⟨fs2, tr, rfl, rfl⟩

/-- Witness for C7: the unrecognized, absent-attribute, plain-write and
CUSTOM cases at concrete states. -/
theorem C7_set_charging_policy_witness :
    setChargingPolicy ⟨⟨80, 70⟩, []⟩ (.unrecognized 9) =
      (⟨⟨80, 70⟩, []⟩, .error (Status.invalidArgument "invalid policy"), [])
    ∧ setChargingPolicy ⟨⟨80, 70⟩, []⟩ .DEFAULT = (⟨⟨80, 70⟩, []⟩, .ok (), [])
    ∧ setChargingPolicy ⟨⟨80, 70⟩, [(paths.CHARGING_POLICY.primary, FileNode.content "1")]⟩ .ADAPTIVE =
        (⟨⟨80, 70⟩, [(paths.CHARGING_POLICY.primary, FileNode.content "3")]⟩, .ok (),
         [(paths.CHARGING_POLICY.primary, "3")])
    ∧ (∃ fs2 tr,
        applyLevels (fsWrite [(paths.CHARGING_POLICY.primary, FileNode.content "1")]
            paths.CHARGING_POLICY.primary (intToDecStr 2)) 80 70 = .ok (fs2, tr) ∧
        setChargingPolicy ⟨⟨80, 70⟩, [(paths.CHARGING_POLICY.primary, FileNode.content "1")]⟩ .CUSTOM =
          (⟨⟨80, 70⟩, fs2⟩, .ok (),
           (paths.CHARGING_POLICY.primary, intToDecStr 2) :: tr)) := by
  refine ⟨C7_set_charging_policy.2.1 _ 9, ?_, ?_, ?_⟩
  · exact C7_set_charging_policy.2.2.1 ⟨⟨80, 70⟩, []⟩ .DEFAULT 1 rfl (by decide)
  · have h := C7_set_charging_policy.2.2.2.1
      ⟨⟨80, 70⟩, [(paths.CHARGING_POLICY.primary, FileNode.content "1")]⟩ .ADAPTIVE 3 rfl
      (by decide) (by decide)
    rw [h]
    decide
  · exact C7_set_charging_policy.2.2.2.2
      ⟨⟨80, 70⟩, [(paths.CHARGING_POLICY.primary, FileNode.content "1")]⟩ (by decide)

/-- C8 (amended): for every feature and property < 51, getStringProperty
returns the trimmed text of the mapped location when that location exists
and is readable; it returns the empty string when there is no mapping or
the location is not present; when the location is present but unreadable
it fails with the service-specific status produced by sysfsErr (the
spec's BackendFailure) — so it is not failure-free; for property ≥ 51 it
fails with InvalidArgument. -/
theorem C8_get_string_property :
    (∀ s f p, 51 ≤ p →
       getStringProperty s f p =
         .error (Status.invalidArgument "property out of range"))
    ∧ (∀ s f p path c, p < 51 → get_property_sysfs f p = some path →
        fsLookup s.fs path = some (FileNode.content c) →
        getStringProperty s f p = .ok (rustTrim c))
    ∧ (∀ s f p, p < 51 → get_property_sysfs f p = none →
        getStringProperty s f p = .ok "")
    ∧ (∀ s f p path, p < 51 → get_property_sysfs f p = some path →
        fsLookup s.fs path = none →
        getStringProperty s f p = .ok "")
    ∧ (∀ s f p path, p < 51 → get_property_sysfs f p = some path →
        fsLookup s.fs path = some FileNode.unreadable →
        getStringProperty s f p =
          .error (sysfsErr (.ioFail path) "getStringProperty")) := by
  have key2 : ∀ (s : ServiceState) f (p : Int) path c, p < 51 →
      get_property_sysfs f p = some path →
      fsLookup s.fs path = some (FileNode.content c) →
      getStringProperty s f p = .ok (rustTrim c) := by
    intro s f p path c hp hmap hlook
    unfold getStringProperty
    rw [if_neg (by omega), hmap]
    simp only []
    rw [if_pos (by unfold pathExists; rw [hlook]; rfl)]
    unfold readStringPath
    rw [hlook]
  have key3 : ∀ (s : ServiceState) f (p : Int), p < 51 →
      get_property_sysfs f p = none → getStringProperty s f p = .ok "" := by
    intro s f p hp hmap
    unfold getStringProperty
    rw [if_neg (by omega), hmap]
  have key4 : ∀ (s : ServiceState) f (p : Int) path, p < 51 →
      get_property_sysfs f p = some path → fsLookup s.fs path = none →
      getStringProperty s f p = .ok "" := by
    intro s f p path hp hmap hlook
    unfold getStringProperty
    rw [if_neg (by omega), hmap]
    simp only []
    rw [if_neg (by unfold pathExists; rw [hlook]; exact Bool.false_ne_true)]
  have key5 : ∀ (s : ServiceState) f (p : Int) path, p < 51 →
      get_property_sysfs f p = some path →
      fsLookup s.fs path = some FileNode.unreadable →
      getStringProperty s f p =
        .error (sysfsErr (.ioFail path) "getStringProperty") := by
    intro s f p path hp hmap hlook
    unfold getStringProperty
    rw [if_neg (by omega), hmap]
    simp only []
    rw [if_pos (by unfold pathExists; rw [hlook]; rfl)]
    unfold readStringPath
    rw [hlook]
  refine ⟨?_, key2, key3, key4, key5⟩
  intro s f p hp
  unfold getStringProperty
  rw [if_pos hp]
  rfl

/-- Witness for C8: a readable mapped property returns its trimmed text,
an unmapped one returns the empty string, a present-but-unreadable one
fails with the service-specific status, and property 51 is rejected. -/
theorem C8_get_string_property_witness :
    getStringProperty
      ⟨⟨80, 70⟩, [("/sys/class/power_supply/battery/health_algo", FileNode.content " 3 ")]⟩
      Feature.HEALTH 2 = .ok "3"
    ∧ getStringProperty ⟨⟨80, 70⟩, []⟩ Feature.HEALTH 7 = .ok ""
    ∧ getStringProperty
        ⟨⟨80, 70⟩, [("/sys/class/power_supply/battery/health_algo", FileNode.unreadable)]⟩
        Feature.HEALTH 2 =
        .error (sysfsErr (.ioFail "/sys/class/power_supply/battery/health_algo")
          "getStringProperty")
    ∧ getStringProperty ⟨⟨80, 70⟩, []⟩ Feature.HEALTH 51 =
        .error (Status.invalidArgument "property out of range") := by
  refine ⟨?_, ?_, ?_, ?_⟩
  · have h := C8_get_string_property.2.1
      ⟨⟨80, 70⟩, [("/sys/class/power_supply/battery/health_algo", FileNode.content " 3 ")]⟩
      Feature.HEALTH 2 "/sys/class/power_supply/battery/health_algo" " 3 "
      (by decide) (by decide) (by decide)
    rw [h]
    decide
  · exact C8_get_string_property.2.2.1 ⟨⟨80, 70⟩, []⟩ Feature.HEALTH 7
      (by decide) (by decide)
  · exact C8_get_string_property.2.2.2.2
      ⟨⟨80, 70⟩, [("/sys/class/power_supply/battery/health_algo", FileNode.unreadable)]⟩
      Feature.HEALTH 2 "/sys/class/power_supply/battery/health_algo"
      (by decide) (by decide) (by decide)
  · exact C8_get_string_property.1 ⟨⟨80, 70⟩, []⟩ Feature.HEALTH 51 (by decide)

/-- C8 counterexample to the claim as stated: property 2 of feature
HEALTH maps to the health_algo node; when that node is present but
unreadable (e.g. a permission or transport fault on read, the source's
`sysfs::Error::Io` arm at service.rs:255), getStringProperty returns an
error — so for property < 51 it is not failure-free, and a location that
"currently exists" does not always yield its text. -/
theorem C8_counterexample :
    getStringProperty
      ⟨⟨80, 70⟩, [("/sys/class/power_supply/battery/health_algo", FileNode.unreadable)]⟩
      Feature.HEALTH 2 =
      .error (Status.serviceSpecific
        "getStringProperty: I/O error on /sys/class/power_supply/battery/health_algo")
    ∧ (Except.error (Status.serviceSpecific
        "getStringProperty: I/O error on /sys/class/power_supply/battery/health_algo")
        : Except Status String) ≠ .ok "" :=
  ⟨by decide, by decide⟩

/-- C9 (amended): setFeatureEnabled writes the sentinel "B2" for enable
and "1M" for disable (distinct codes) to the dock-defend settings
attribute when the feature is DOCK_DEFEND and that attribute is present;
it fails with UnsupportedOperation for every other feature and also for
DOCK_DEFEND when the settings attribute is absent. -/
theorem C9_set_feature_enabled :
    (∀ (s : ServiceState) (en : Bool), paths.DD_SETTINGS.present s.fs = true →
       setEnable s .DOCK_DEFEND en =
         (⟨s.limits, fsWrite s.fs paths.DD_SETTINGS.primary
            (if en then "B2" else "1M")⟩,
          .ok (), [(paths.DD_SETTINGS.primary, if en then "B2" else "1M")]))
    ∧ (∀ (s : ServiceState) (en : Bool), paths.DD_SETTINGS.present s.fs = false →
        setEnable s .DOCK_DEFEND en =
          (s, .error (Status.unsupportedOperation "feature not controllable"), []))
    ∧ (∀ (s : ServiceState) (f : Feature) (en : Bool), f ≠ .DOCK_DEFEND →
        setEnable s f en =
          (s, .error (Status.unsupportedOperation "feature not controllable"), []))
    ∧ ("B2" : String) ≠ "1M" := by
  refine ⟨?_, ?_, ?_, by decide⟩
  · intro s en hpres
    unfold setEnable
    rw [if_pos hpres,
      write_string_of_present paths.DD_SETTINGS rfl s.fs hpres
        (if en then "B2" else "1M")]
  · intro s en habs
    unfold setEnable
    rw [if_neg (by rw [habs]; exact Bool.false_ne_true)]
    rfl
  · intro s f en hne
    cases f
    case DOCK_DEFEND => exact absurd rfl hne
    all_goals rfl

/-- Witness for C9: a present settings attribute accepts the enable
sentinel, and a non-dock feature is rejected as unsupported. -/
theorem C9_set_feature_enabled_witness :
    setEnable ⟨⟨80, 70⟩, [(paths.DD_SETTINGS.primary, FileNode.content "0")]⟩ .DOCK_DEFEND true =
      (⟨⟨80, 70⟩, [(paths.DD_SETTINGS.primary, FileNode.content "B2")]⟩, .ok (),
       [(paths.DD_SETTINGS.primary, "B2")])
    ∧ setEnable ⟨⟨80, 70⟩, []⟩ Feature.HEALTH false =
        (⟨⟨80, 70⟩, []⟩,
         .error (Status.unsupportedOperation "feature not controllable"), []) := by
  constructor
  · have h := C9_set_feature_enabled.1
      ⟨⟨80, 70⟩, [(paths.DD_SETTINGS.primary, FileNode.content "0")]⟩ true (by decide)
    rw [h]
    decide
  · exact C9_set_feature_enabled.2.2.1 ⟨⟨80, 70⟩, []⟩ Feature.HEALTH false
      (by decide)

/-- C9 counterexample: with the dock-defend settings attribute absent,
enabling DOCK_DEFEND returns UnsupportedOperation — the claim as stated
says absence is tolerated without error and that only features other
than DOCK_DEFEND fail with UnsupportedOperation. -/
theorem C9_counterexample :
    setEnable ⟨⟨80, 70⟩, []⟩ .DOCK_DEFEND true =
      (⟨⟨80, 70⟩, []⟩,
       .error (Status.unsupportedOperation "feature not controllable"), [])
    ∧ (Except.error (Status.unsupportedOperation "feature not controllable")
        : Except Status Unit) ≠ .ok () :=
  ⟨by decide, by decide⟩

/-- C10: for every feature and every negative property id, the id passes
the property validation (only ids ≥ 51 are rejected), the property table
yields no mapping, getStringProperty returns the empty string and
setStringProperty succeeds without performing any write. -/
theorem C10_negative_property (f : Feature) (p : Int) (hneg : p < 0) :
    get_property_sysfs f p = none
    ∧ (∀ s, getStringProperty s f p = .ok "")
    ∧ (∀ s v, setStringProperty s f p v = (s, .ok (), [])) := by
  have hnone : get_property_sysfs f p = none := by
    cases f <;> simp only [get_property_sysfs] <;> split_ifs <;>
      first
      | rfl
      | omega
  refine ⟨hnone, ?_, ?_⟩
  · intro s
    unfold getStringProperty
    rw [if_neg (by omega), hnone]
  · intro s v
    unfold setStringProperty
    rw [if_neg (by omega), hnone]

/-- Witness for C10: feature HEALTH with property −1. -/
theorem C10_negative_property_witness :
    get_property_sysfs Feature.HEALTH (-1) = none
    ∧ getStringProperty ⟨⟨80, 70⟩, []⟩ Feature.HEALTH (-1) = .ok ""
    ∧ setStringProperty ⟨⟨80, 70⟩, []⟩ Feature.HEALTH (-1) "x" =
        (⟨⟨80, 70⟩, []⟩, .ok (), []) :=
  ⟨(C10_negative_property Feature.HEALTH (-1) (by decide)).1,
   (C10_negative_property Feature.HEALTH (-1) (by decide)).2.1 _,
   (C10_negative_property Feature.HEALTH (-1) (by decide)).2.2 _ "x"⟩

end BatteryHal
